import Mathlib

/-!
Shallow embedding of `gitpod-task-contribution.ts`
(`src/components/theia/packages/gitpod-extension/src/browser/gitpod-task-contribution.ts`):
the Gitpod task reconciler that maps tasks delivered by the task server to
Theia terminal widgets.  Pure data is translated directly; the effectful
parts (terminal subsystem calls, the supervisor close request, console
logging) are modelled as an explicit state (`CoreState`) plus an event
trace (`List Event`), with an `Env` oracle deciding which external calls
throw.  Promise rejection of an `async` function is modelled with
`Except`: `.error` carries the state and trace accumulated before the
throw.
-/

namespace Gitpod

/-- Task lifecycle states.  Modelled from the spec: the enum
`GitpodTaskState` lives in `../common/gitpod-task-protocol`, which is not
under `src/`; the spec lists the states `OPENING`, `RUNNING`, `CLOSED`. -/
inductive GitpodTaskState
  | opening
  | running
  | closed
deriving DecidableEq

/-- Presentation hints of a task.  Modelled from the spec:
`name`, `openIn` (default `bottom`), `openMode` (default `tab-after`). -/
structure TaskPresentation where
  name : String
  openIn : Option String := none
  openMode : Option String := none
deriving DecidableEq

/-- A task as delivered by the task server.  Modelled from the spec: the
interface `GitpodTask` lives in `../common/gitpod-task-protocol`; `terminal`
is the remote session id (the spec's `remoteSessionId`), `presentation`
the display hints. -/
structure GitpodTask where
  id : String
  state : GitpodTaskState
  terminal : Option String := none
  presentation : Option TaskPresentation := none
deriving DecidableEq

/-- The fields of a `GitpodTaskTerminalWidget` the reconciler reads or
writes: its widget `id`, its `kind` tag, the `remoteTerminal` latch, and
`backingValid` standing for `IBaseTerminalServer.validateId(terminal.terminalId)`
(modelled from the spec: the "terminal-id validity check used to detect a
stale backing session" is external to `src/`, so it is an abstract boolean
on the widget that `start()` makes true). -/
structure Widget where
  id : String
  kind : String
  remoteTerminal : Option String := none
  backingValid : Bool := false
deriving DecidableEq

/-- JavaScript truthiness of a `string | undefined` value: `undefined`
and the empty string are falsy. -/
def jsTruthy : Option String → Bool
  | none => false
  | some s => s ≠ ""

/-- JavaScript `a || b` for a `string | undefined` left operand. -/
def jsOrStr : Option String → String → String
  | none, d => d
  | some s, d => if s = "" then d else s

/-- JavaScript string interpolation of a `string | undefined` value:
`undefined` prints as "undefined". -/
def optToJsString : Option String → String
  | none => "undefined"
  | some s => s

/-- JavaScript `String.prototype.split` with a single-character separator,
at the character-list level: `split` of the empty string is `[[]]`. -/
def splitChars (sep : Char) : List Char → List (List Char)
  | [] => [[]]
  | c :: cs =>
    if c = sep then [] :: splitChars sep cs
    else
      match splitChars sep cs with
      | [] => [[c]]
      | h :: t => (c :: h) :: t

/-- JavaScript `s.split(sep)` for a single-character separator. -/
def jsSplit (s : String) (sep : Char) : List String :=
  (splitChars sep s.data).map fun l => String.mk l

/-- The widget-id namespace used for task terminals
(`const idPrefix = 'gitpod-task-terminal'` in the source). -/
def idPref : String := "gitpod-task-terminal"

/-- `GitpodTaskTerminalWidget.toTerminalId`: derive the widget id from the
task id (`idPrefix + ':' + id`). -/
def toTerminalId (id : String) : String := idPref ++ ":" ++ id

/-- `GitpodTaskTerminalWidget.getTaskId`: `terminal.id.split(':')[1]`
(indexing past the end of the array is `undefined` in JavaScript; it is
only ever applied to derived ids, which contain a colon, so the default
is immaterial). -/
def getTaskId (terminal : Widget) : String :=
  (jsSplit terminal.id ':').getD 1 ""

/-- Association-list lookup for the `taskTerminals` map. -/
def lookupW : List (String × Widget) → String → Option Widget
  | [], _ => none
  | (k, w) :: r, i => if k = i then some w else lookupW r i

/-- Association-list update for the `taskTerminals` map (`Map.set`). -/
def setW : List (String × Widget) → String → Widget → List (String × Widget)
  | [], i, w => [(i, w)]
  | (k, v) :: r, i, w => if k = i then (i, w) :: r else (k, v) :: setW r i w

/-- Association-list removal for the `taskTerminals` map (`Map.delete`). -/
def eraseW : List (String × Widget) → String → List (String × Widget)
  | [], _ => []
  | (k, v) :: r, i => if k = i then eraseW r i else (k, v) :: eraseW r i

/-- The observable actions the reconciler performs on its collaborators. -/
inductive Event
  | newTerminal (id : String) (title : String)
  | startTerminal (id : String)
  | activate (id : String) (ref : Option String) (area : String) (mode : String)
  | exec (id : String) (cwd : String) (args : List String)
  | disposeEv (id : String)
  | fetchClose (url : String)
  | log (msg : String)
  | newDefaultTerminal
  | openTerminal
deriving DecidableEq

/-- The mutable state of the contribution together with the relevant state
of the terminal subsystem: the `taskTerminals` registry, which widget ids
have the `onDidDispose` / `onTerminalDidClose` handlers of `init()`
installed, and the ids of all live terminals (`this.terminals.all`). -/
structure CoreState where
  taskTerminals : List (String × Widget) := []
  disposeHandlers : List String := []
  closeHandlers : List String := []
  terminalsAll : List String := []
deriving DecidableEq

/-- The empty initial state of the contribution. -/
def initialCoreState : CoreState := {}

/-- Failure oracle for the external asynchronous calls: which terminal
creations, starts, activations and command executions throw, and whether
creating the fallback default terminal throws. -/
structure Env where
  newTerminalFails : String → Bool
  startFails : String → Bool
  activateFails : String → Bool
  execFails : String → Bool
  defaultNewTerminalFails : Bool

/-- The `onDidCreateTerminal` listener registered in `init()`: a widget of
kind `gitpod-task` is put into the `taskTerminals` map and gets its
`onDidDispose` and `onTerminalDidClose` handlers installed. -/
def registerOnCreate (st : CoreState) (w : Widget) : CoreState :=
  if w.kind = "gitpod-task" then
    { st with
      taskTerminals := setW st.taskTerminals w.id w
      disposeHandlers := w.id :: st.disposeHandlers
      closeHandlers := w.id :: st.closeHandlers }
  else st

/-- `this.terminals.newTerminal({id, kind: 'gitpod-task', title, useServerTitle: false})`:
creates the widget, which makes the subsystem fire `onDidCreateTerminal`
(so the widget is registered before `start()` runs). -/
def newTerminalOp (env : Env) (st : CoreState) (id : String) (title : String) :
    Except Unit (CoreState × Widget × List Event) :=
  if env.newTerminalFails id then .error ()
  else
    let w : Widget := { id := id, kind := "gitpod-task" }
    let st1 : CoreState := { st with terminalsAll := st.terminalsAll ++ [id] }
    .ok (registerOnCreate st1 w, w, [Event.newTerminal id title])

/-- `terminal.start()`: gives the widget a valid backing session. -/
def startOp (env : Env) (st : CoreState) (id : String) :
    Except Unit (CoreState × List Event) :=
  if env.startFails id then .error ()
  else
    match lookupW st.taskTerminals id with
    | some w =>
      .ok ({ st with taskTerminals := setW st.taskTerminals id { w with backingValid := true } },
        [Event.startTerminal id])
    | none => .ok (st, [Event.startTerminal id])

/-- `this.terminals.activateTerminal(terminal, {ref, area, mode})`. -/
def activateOp (env : Env) (id : String) (ref : Option String) (area mode : String) :
    Except Unit (List Event) :=
  if env.activateFails id then .error ()
  else .ok [Event.activate id ref area mode]

/-- The argument list of the supervisor attach command:
the source builds the string
"/theia/supervisor terminal attach <remoteTerminal> -ir" and splits it
on spaces. -/
def attachArgs (remote : Option String) : List String :=
  jsSplit ("/theia/supervisor terminal attach " ++ optToJsString remote ++ " -ir") ' '

/-- `terminal.executeCommand({cwd: '/workspace', args})`. -/
def execOp (env : Env) (id : String) (args : List String) :
    Except Unit (List Event) :=
  if env.execFails id then .error ()
  else .ok [Event.exec id "/workspace" args]

/-- `terminal.dispose()`: the widget leaves the terminal subsystem and the
`onDidDispose` handler installed by `init()` — when it was installed —
removes the registry entry. -/
def fireDispose (st : CoreState) (id : String) : CoreState × List Event :=
  let st1 : CoreState := { st with terminalsAll := st.terminalsAll.filter fun x => x ≠ id }
  if id ∈ st.disposeHandlers then
    ({ st1 with taskTerminals := eraseW st1.taskTerminals id }, [Event.disposeEv id])
  else (st1, [Event.disposeEv id])

/-- The `onTerminalDidClose` handler body installed in `init()`: with a
truthy `remoteTerminal` it fetches the supervisor close URL built from
`window.location.protocol`, `window.location.host` and the remote session
id; otherwise it logs "task alias is missing". -/
def onCloseEvent (proto host : String) (w : Widget) : Event :=
  if jsTruthy w.remoteTerminal then
    Event.fetchClose
      (proto ++ "//" ++ host ++ "/_supervisor/v1/terminal/close/" ++ optToJsString w.remoteTerminal)
  else Event.log "task alias is missing"

/-- A user closing the terminal with widget id `id`: the
`onTerminalDidClose` handler runs (when installed), then the widget is
disposed. -/
def userCloseTerminal (proto host : String) (st : CoreState) (id : String) :
    CoreState × List Event :=
  let evs :=
    match lookupW st.taskTerminals id with
    | some w => if id ∈ st.closeHandlers then [onCloseEvent proto host w] else []
    | none => []
  let r := fireDispose st id
  (r.1, evs ++ r.2)

/-- The log message of the per-task catch in `initTerminals`. -/
def startErrMsg : String := "Failed to start Gitpod task terminal:"

/-- The log message of the per-task catch in `updateTerminals`. -/
def updateErrMsg : String := "Failed to update Gitpod task terminal:"

/-- The log message of the bootstrap `.catch` in `onDidInitializeLayout`. -/
def bootErrMsg : String := "Failed to initizalize Gitpod task terminals:"

/-- The body of the `try` block of one `initTerminals` loop iteration:
look the task's widget up; if absent, create it (reading
`task.presentation!.name` — a missing `presentation` throws before the
creation call), start it and place it anchored at `ref`; if present with
an invalid backing session, restart it; finally the successfully handled
widget becomes the new `ref`.  `.error` carries the state and trace
accumulated before the throw. -/
def initStepBody (env : Env) (st : CoreState) (ref : Option String) (t : GitpodTask) :
    Except (CoreState × List Event) (CoreState × List Event × Option String) :=
  let id := toTerminalId t.id
  match lookupW st.taskTerminals id with
  | none =>
    match t.presentation with
    | none => .error (st, [])
    | some p =>
      match newTerminalOp env st id p.name with
      | .error _ => .error (st, [])
      | .ok (st1, _, evs1) =>
        match startOp env st1 id with
        | .error _ => .error (st1, evs1)
        | .ok (st2, evs2) =>
          match activateOp env id ref (jsOrStr p.openIn "bottom") (jsOrStr p.openMode "tab-after") with
          | .error _ => .error (st2, evs1 ++ evs2)
          | .ok evs3 => .ok (st2, evs1 ++ evs2 ++ evs3, some id)
  | some w =>
    if !w.backingValid then
      match startOp env st id with
      | .error _ => .error (st, [])
      | .ok (st1, evs) => .ok (st1, evs, some id)
    else .ok (st, [], some id)

/-- One `initTerminals` loop iteration with its `catch`: an error is
logged and leaves `ref` unchanged. -/
def initStep (env : Env) (st : CoreState) (ref : Option String) (t : GitpodTask) :
    CoreState × List Event × Option String :=
  match initStepBody env st ref t with
  | .ok r => r
  | .error (st1, evs) => (st1, evs ++ [Event.log startErrMsg], ref)

/-- The `for (const task of tasks)` loop of `initTerminals`: tasks in
state `CLOSED` are skipped before the `try` block. -/
def initLoop (env : Env) : CoreState → Option String → List GitpodTask →
    CoreState × List Event × Option String
  | st, ref, [] => (st, [], ref)
  | st, ref, t :: ts =>
    if t.state = GitpodTaskState.closed then initLoop env st ref ts
    else
      let r1 := initStep env st ref t
      let r2 := initLoop env r1.1 r1.2.2 ts
      (r2.1, r1.2.1 ++ r2.2.1, r2.2.2)

/-- The body of the `try` block of one `updateTerminals` loop iteration:
skip tasks with no registered widget, dispose the widget of a `CLOSED`
task, skip non-`RUNNING` tasks and already-latched widgets, and otherwise
set the `remoteTerminal` latch and issue the attach command. -/
def updateStepBody (env : Env) (st : CoreState) (t : GitpodTask) :
    Except (CoreState × List Event) (CoreState × List Event) :=
  let id := toTerminalId t.id
  match lookupW st.taskTerminals id with
  | none => .ok (st, [])
  | some w =>
    if t.state = GitpodTaskState.closed then
      .ok (fireDispose st id)
    else if t.state ≠ GitpodTaskState.running ∨ jsTruthy w.remoteTerminal then
      .ok (st, [])
    else
      let w1 : Widget := { w with remoteTerminal := t.terminal }
      let st1 : CoreState := { st with taskTerminals := setW st.taskTerminals id w1 }
      match execOp env id (attachArgs w1.remoteTerminal) with
      | .error _ => .error (st1, [])
      | .ok evs => .ok (st1, evs)

/-- One `updateTerminals` loop iteration with its `catch`. -/
def updateStep (env : Env) (st : CoreState) (t : GitpodTask) : CoreState × List Event :=
  match updateStepBody env st t with
  | .ok r => r
  | .error (st1, evs) => (st1, evs ++ [Event.log updateErrMsg])

/-- `updateTerminals(tasks)`: the async method may in principle reject
(hence the `Except` shape of a promise), but every loop iteration catches
its own errors. -/
def updateTerminals (env : Env) : CoreState → List GitpodTask →
    Except (CoreState × List Event) (CoreState × List Event)
  | st, [] => .ok (st, [])
  | st, t :: ts =>
    let r1 := updateStep env st t
    match updateTerminals env r1.1 ts with
    | .ok (st2, evs2) => .ok (st2, r1.2 ++ evs2)
    | .error (st2, evs2) => .error (st2, r1.2 ++ evs2)

/-- The settled outcome of `updateTerminals` (state and events whether it
resolved or rejected). -/
def updRun (env : Env) (st : CoreState) (ts : List GitpodTask) : CoreState × List Event :=
  match updateTerminals env st ts with
  | .ok r => r
  | .error r => r

/-- `initTerminals()`: fetch the tasks (`this.server.getTasks()` — a
rejected fetch rejects the whole pass), run the creation loop with `ref`
starting `undefined`, run `updateTerminals(tasks)`, and if the terminal
subsystem has no live terminal at all, create and open one default
terminal (its `start()` is not awaited, so its failure cannot reject the
pass; its `kind` is not `gitpod-task`, so it is not registered). -/
def initTerminals (env : Env) (fetch : Except Unit (List GitpodTask)) (st : CoreState) :
    Except (CoreState × List Event) (CoreState × List Event) :=
  match fetch with
  | .error _ => .error (st, [])
  | .ok tasks =>
    let r1 := initLoop env st none tasks
    match updateTerminals env r1.1 tasks with
    | .error (st2, evs2) => .error (st2, r1.2.1 ++ evs2)
    | .ok (st2, evs2) =>
      if st2.terminalsAll.length = 0 then
        if env.defaultNewTerminalFails then .error (st2, r1.2.1 ++ evs2)
        else
          let st3 : CoreState := { st2 with terminalsAll := st2.terminalsAll ++ ["(default)"] }
          .ok (st3, r1.2.1 ++ evs2 ++
            [Event.newDefaultTerminal, Event.startTerminal "(default)", Event.openTerminal])
      else .ok (st2, r1.2.1 ++ evs2)

/-- The settled outcome of `initTerminals` (state and events whether it
resolved or rejected). -/
def initRun (env : Env) (fetch : Except Unit (List GitpodTask)) (st : CoreState) :
    CoreState × List Event :=
  match initTerminals env fetch st with
  | .ok r => r
  | .error r => r

/-- A reconciliation pass as submitted to the `pendingUpdates` chain:
the bootstrap pass (whose task fetch may fail) or a push-notification
pass carrying the full task list. -/
inductive Pass
  | bootstrap (fetch : Except Unit (List GitpodTask))
  | push (tasks : List GitpodTask)

/-- The task list a pass processes (empty when the bootstrap fetch
rejects before the loop). -/
def Pass.tasksOf : Pass → List GitpodTask
  | .bootstrap (.ok tasks) => tasks
  | .bootstrap (.error _) => []
  | .push tasks => tasks

/-- Run one pass from a state.  The bootstrap pass is the promise
`this.initTerminals().catch(e => console.error(...))` built in
`onDidInitializeLayout`, so its rejection is always caught and logged;
a push pass is `this.updateTerminals(tasks)` appended with `.then`. -/
def runPass (env : Env) : Pass → CoreState →
    Except (CoreState × List Event) (CoreState × List Event)
  | .bootstrap fetch, st =>
    match initTerminals env fetch st with
    | .ok r => .ok r
    | .error (st1, evs) => .ok (st1, evs ++ [Event.log bootErrMsg])
  | .push tasks, st => updateTerminals env st tasks

/-- The settled outcome of one pass (state and events whether it resolved
or rejected). -/
def passRun (env : Env) (p : Pass) (st : CoreState) : CoreState × List Event :=
  match runPass env p st with
  | .ok r => r
  | .error r => r

/-- The state a pass leaves behind, settled either way. -/
def passState (env : Env) (p : Pass) (st : CoreState) : CoreState :=
  (passRun env p st).1

/-- Items of the serialized execution trace of the `pendingUpdates`
chain: pass boundaries, the events of pass bodies, and a marker for a
pass whose body was skipped because the chain was already rejected
(a `.then` callback on a rejected promise never runs). -/
inductive TraceItem
  | passStart (n : Nat)
  | ev (e : Event)
  | passEnd (n : Nat)
  | skipped (n : Nat)
deriving DecidableEq

/-- Run the `pendingUpdates` chain: each submitted pass is appended after
the current tail with `.then`, so its body starts only once the previous
pass has settled; if the chain is rejected, later bodies are skipped and
the rejection propagates.  Returns the final state, the full trace, and
whether the chain ended rejected. -/
def runChain (env : Env) : CoreState → Nat → Bool → List Pass →
    CoreState × List TraceItem × Bool
  | st, _, rej, [] => (st, [], rej)
  | st, n, rej, p :: ps =>
    if rej then
      let r := runChain env st (n + 1) true ps
      (r.1, TraceItem.skipped n :: r.2.1, r.2.2)
    else
      match runPass env p st with
      | .ok (st1, evs) =>
        let r := runChain env st1 (n + 1) false ps
        (r.1, TraceItem.passStart n :: (evs.map TraceItem.ev ++ TraceItem.passEnd n :: r.2.1),
          r.2.2)
      | .error (st1, evs) =>
        let r := runChain env st1 (n + 1) true ps
        (r.1, TraceItem.passStart n :: (evs.map TraceItem.ev ++ TraceItem.passEnd n :: r.2.1),
          r.2.2)

/-- The chain built by `onDidInitializeLayout`: the bootstrap pass first,
then every push notification in arrival order. -/
def pendingUpdatesRun (env : Env) (fetch : Except Unit (List GitpodTask))
    (pushes : List (List GitpodTask)) : CoreState × List TraceItem × Bool :=
  runChain env initialCoreState 0 false (Pass.bootstrap fetch :: pushes.map Pass.push)

/-- A trace consists of consecutively numbered pass blocks
`passStart n, events, passEnd n`: passes run in submission order, whole,
and never overlap. -/
inductive WellBlocked : Nat → List TraceItem → Prop
  | nil (n : Nat) : WellBlocked n []
  | block (n : Nat) (evs : List Event) (rest : List TraceItem) :
      WellBlocked (n + 1) rest →
      WellBlocked n (TraceItem.passStart n :: (evs.map TraceItem.ev ++ TraceItem.passEnd n :: rest))

/-- Registry wiring invariant: every widget id in the `taskTerminals` map
has its `onDidDispose` handler installed. -/
def RegWired (st : CoreState) : Prop :=
  ∀ p ∈ st.taskTerminals, p.1 ∈ st.disposeHandlers

/-- Latch invariant for the widget registered at key `i`: either no
widget is bound there, or the bound widget's `remoteTerminal` latch
holds the fixed value `v`. -/
def LatchInv (i : String) (v : Option String) (st : CoreState) : Prop :=
  lookupW st.taskTerminals i = none ∨
    ∃ w, lookupW st.taskTerminals i = some w ∧ w.remoteTerminal = v

/-- States the system can reach: the initial state, followed by any
interleaving of reconciliation passes (serialized by the scheduler),
user terminal closes, and externally triggered disposals. -/
inductive Reach : CoreState → Prop
  | init : Reach initialCoreState
  | pass (env : Env) (p : Pass) (st : CoreState) : Reach st → Reach (passState env p st)
  | userClose (proto host : String) (st : CoreState) (id : String) :
      Reach st → Reach (userCloseTerminal proto host st id).1
  | extDispose (st : CoreState) (id : String) : Reach st → Reach (fireDispose st id).1

/-- An environment in which no external call fails. -/
def envOK : Env :=
  { newTerminalFails := fun _ => false
    startFails := fun _ => false
    activateFails := fun _ => false
    execFails := fun _ => false
    defaultNewTerminalFails := false }

/-! ## Association-list lemmas for the `taskTerminals` registry -/

theorem lookupW_setW_self (l : List (String × Widget)) (i : String) (w : Widget) :
    lookupW (setW l i w) i = some w := by
  induction l with
  | nil => simp [setW, lookupW]
  | cons p r ih =>
    obtain ⟨k, v⟩ := p
    by_cases h : k = i
    · simp [setW, h, lookupW]
    · simp [setW, h, lookupW, ih]

theorem lookupW_setW_ne (l : List (String × Widget)) (i j : String) (w : Widget)
    (h : j ≠ i) : lookupW (setW l i w) j = lookupW l j := by
  induction l with
  | nil => simp [setW, lookupW, Ne.symm h]
  | cons p r ih =>
    obtain ⟨k, v⟩ := p
    by_cases hk : k = i
    · subst hk
      simp [setW, lookupW, Ne.symm h]
    · simp [setW, hk, lookupW, ih]

theorem lookupW_eraseW_self (l : List (String × Widget)) (i : String) :
    lookupW (eraseW l i) i = none := by
  induction l with
  | nil => simp [eraseW, lookupW]
  | cons p r ih =>
    obtain ⟨k, v⟩ := p
    by_cases h : k = i
    · simp [eraseW, h, ih]
    · simp [eraseW, h, lookupW, ih]

theorem lookupW_eraseW_ne (l : List (String × Widget)) (i j : String)
    (h : j ≠ i) : lookupW (eraseW l i) j = lookupW l j := by
  induction l with
  | nil => simp [eraseW, lookupW]
  | cons p r ih =>
    obtain ⟨k, v⟩ := p
    by_cases hk : k = i
    · subst hk
      simp [eraseW, lookupW, Ne.symm h, ih]
    · simp [eraseW, hk, lookupW, ih]

theorem lookupW_some_mem {l : List (String × Widget)} {i : String} {w : Widget}
    (h : lookupW l i = some w) : (i, w) ∈ l := by
  induction l with
  | nil => simp [lookupW] at h
  | cons p r ih =>
    obtain ⟨k, v⟩ := p
    by_cases hk : k = i
    · subst hk
      simp [lookupW] at h
      subst h
      exact List.mem_cons_self _ _
    · simp [lookupW, hk] at h
      exact List.mem_cons_of_mem _ (ih h)

theorem mem_setW {l : List (String × Widget)} {i : String} {w p : _}
    (h : p ∈ setW l i w) : p = (i, w) ∨ p ∈ l := by
  induction l with
  | nil =>
    simp [setW] at h
    exact Or.inl h
  | cons q r ih =>
    obtain ⟨k, v⟩ := q
    by_cases hk : k = i
    · subst hk
      simp [setW] at h
      rcases h with h | h
      · exact Or.inl h
      · exact Or.inr (List.mem_cons_of_mem _ h)
    · simp [setW, hk] at h
      rcases h with h | h
      · exact Or.inr (by simp [h])
      · rcases ih h with h1 | h1
        · exact Or.inl h1
        · exact Or.inr (List.mem_cons_of_mem _ h1)

theorem mem_eraseW {l : List (String × Widget)} {i : String} {p : _}
    (h : p ∈ eraseW l i) : p ∈ l := by
  induction l with
  | nil => simp [eraseW] at h
  | cons q r ih =>
    obtain ⟨k, v⟩ := q
    by_cases hk : k = i
    · subst hk
      simp [eraseW] at h
      exact List.mem_cons_of_mem _ (ih h)
    · simp [eraseW, hk] at h
      rcases h with h | h
      · simp [h]
      · exact List.mem_cons_of_mem _ (ih h)

/-! ## Identity derivation -/

theorem toTerminalId_inj {s1 s2 : String} (h : toTerminalId s1 = toTerminalId s2) :
    s1 = s2 := by
  have hd := congrArg String.data h
  simp [toTerminalId, String.data_append] at hd
  exact String.ext hd

theorem splitChars_of_not_mem (sep : Char) (l : List Char) (h : sep ∉ l) :
    splitChars sep l = [l] := by
  induction l with
  | nil => rfl
  | cons c cs ih =>
    have hc : ¬ c = sep := fun e => h (by simp [e])
    have hcs : sep ∉ cs := fun m => h (List.mem_cons_of_mem _ m)
    simp [splitChars, hc, ih hcs]

theorem splitChars_append (sep : Char) (l1 l2 : List Char) (h : sep ∉ l1) :
    splitChars sep (l1 ++ sep :: l2) = l1 :: splitChars sep l2 := by
  induction l1 with
  | nil => simp [splitChars]
  | cons c cs ih =>
    have hc : ¬ c = sep := fun e => h (by simp [e])
    have hcs : sep ∉ cs := fun m => h (List.mem_cons_of_mem _ m)
    simp [splitChars, hc, ih hcs]

theorem data_toTerminalId (s : String) :
    (toTerminalId s).data = idPref.data ++ ':' :: s.data := by
  simp [toTerminalId, String.data_append]

theorem getTaskId_toTerminalId (s : String) (h : ':' ∉ s.data) :
    getTaskId { id := toTerminalId s, kind := "gitpod-task" } = s := by
  have hpre : ':' ∉ idPref.data := by decide
  simp only [getTaskId, jsSplit, data_toTerminalId]
  rw [splitChars_append ':' _ _ hpre, splitChars_of_not_mem ':' _ h]
  rfl

/-- Claim C8, counterexample: for the task id "a:b" (a task id containing
the namespacing separator), `getTaskId` after `toTerminalId` returns "a",
not the original id, so the round trip of the claim fails. -/
theorem task_id_round_trip_counterexample :
    getTaskId { id := toTerminalId "a:b", kind := "gitpod-task" } = "a" ∧
      ("a" : String) ≠ "a:b" := by
  constructor
  · rfl
  · decide

/-- Claim C8 (amended): the derived terminal identity is exactly
"gitpod-task-terminal:" + s, the derivation is injective over all task
ids, and the task id is recovered by `getTaskId` after `toTerminalId` for
every task id that does not itself contain the ':' separator. -/
theorem terminal_identity_injective_round_trip :
    (∀ s : String, toTerminalId s = "gitpod-task-terminal" ++ ":" ++ s) ∧
      (∀ s1 s2 : String, toTerminalId s1 = toTerminalId s2 → s1 = s2) ∧
      (∀ s : String, ':' ∉ s.data →
        getTaskId { id := toTerminalId s, kind := "gitpod-task" } = s) := by
  refine ⟨fun s => rfl, fun s1 s2 h => toTerminalId_inj h, fun s h => getTaskId_toTerminalId s h⟩

/-- Claim C8, witness: the amended round trip evaluated at the concrete
task id "t1". -/
theorem terminal_identity_round_trip_witness :
    getTaskId { id := toTerminalId "t1", kind := "gitpod-task" } = "t1" :=
  terminal_identity_injective_round_trip.2.2 "t1" (by decide)

/-! ## User-close notification -/

theorem fireDispose_events (st : CoreState) (i : String) :
    (fireDispose st i).2 = [Event.disposeEv i] := by
  simp only [fireDispose]
  split <;> rfl

/-- Claim C6: when the user closes a task-bound terminal, a truthy
`remoteTerminal` latch leads to a close request against
protocol + "//" + host + "/_supervisor/v1/terminal/close/" + remote
session id, while an unset latch leads to the diagnostic
"task alias is missing" and no close request. -/
theorem user_close_notifies_or_logs
    (proto host : String) (st : CoreState) (i : String) (w : Widget) (r : String)
    (hw : lookupW st.taskTerminals i = some w) (hh : i ∈ st.closeHandlers) :
    (w.remoteTerminal = some r → r ≠ "" →
      (userCloseTerminal proto host st i).2 =
        [Event.fetchClose (proto ++ "//" ++ host ++ "/_supervisor/v1/terminal/close/" ++ r),
          Event.disposeEv i]) ∧
    (w.remoteTerminal = none →
      (userCloseTerminal proto host st i).2 =
        [Event.log "task alias is missing", Event.disposeEv i]) := by
  constructor
  · intro hr hne
    simp [userCloseTerminal, onCloseEvent, jsTruthy, optToJsString, hw, hh, hr, hne,
      fireDispose_events]
  · intro hr
    simp [userCloseTerminal, onCloseEvent, jsTruthy, hw, hh, hr, fireDispose_events]

/-- Claim C6, witness: the close request for a concrete attached widget
and the diagnostic for a concrete never-attached widget. -/
theorem user_close_notifies_or_logs_witness :
    (userCloseTerminal "https:" "ws.gitpod.io"
        { taskTerminals := [("x", { id := "x", kind := "gitpod-task", remoteTerminal := some "r2" })]
          disposeHandlers := ["x"]
          closeHandlers := ["x"]
          terminalsAll := ["x"] } "x").2 =
      [Event.fetchClose ("https:" ++ "//" ++ "ws.gitpod.io" ++ "/_supervisor/v1/terminal/close/" ++ "r2"),
        Event.disposeEv "x"] ∧
    (userCloseTerminal "https:" "ws.gitpod.io"
        { taskTerminals := [("y", { id := "y", kind := "gitpod-task" })]
          disposeHandlers := ["y"]
          closeHandlers := ["y"]
          terminalsAll := ["y"] } "y").2 =
      [Event.log "task alias is missing", Event.disposeEv "y"] := by
  constructor
  · exact (user_close_notifies_or_logs "https:" "ws.gitpod.io" _ "x"
      { id := "x", kind := "gitpod-task", remoteTerminal := some "r2" } "r2"
      (by decide) (by decide)).1 (by decide) (by decide)
  · exact (user_close_notifies_or_logs "https:" "ws.gitpod.io" _ "y"
      { id := "y", kind := "gitpod-task" } "r2"
      (by decide) (by decide)).2 (by decide)

/-! ## Missing presentation during bootstrap creation -/

/-- Claim C10: during the bootstrap pass, a non-CLOSED task with no
registered terminal and an absent `presentation` makes the
`task.presentation!.name` access throw before any terminal is created;
the per-task catch logs the error, the state (registry included) is
unchanged, the anchor `ref` is unchanged, and the loop continues with the
remaining tasks. -/
theorem missing_presentation_caught
    (env : Env) (st : CoreState) (ref : Option String) (t : GitpodTask)
    (ts : List GitpodTask)
    (hp : t.presentation = none) (hs : t.state ≠ GitpodTaskState.closed)
    (hl : lookupW st.taskTerminals (toTerminalId t.id) = none) :
    initStep env st ref t = (st, [Event.log startErrMsg], ref) ∧
    initLoop env st ref (t :: ts) =
      ((initLoop env st ref ts).1,
        Event.log startErrMsg :: (initLoop env st ref ts).2.1,
        (initLoop env st ref ts).2.2) := by
  have hstep : initStep env st ref t = (st, [Event.log startErrMsg], ref) := by
    simp [initStep, initStepBody, hl, hp]
  refine ⟨hstep, ?_⟩
  simp [initLoop, hs, hstep]

/-- Claim C10, witness: a concrete OPENING task with no presentation is
logged and skipped while the bootstrap loop continues. -/
theorem missing_presentation_caught_witness :
    initStep envOK initialCoreState none { id := "t1", state := GitpodTaskState.opening } =
      (initialCoreState, [Event.log startErrMsg], none) :=
  (missing_presentation_caught envOK initialCoreState none
    { id := "t1", state := GitpodTaskState.opening } [] (by decide) (by decide) (by decide)).1

/-! ## Shape of one `updateTerminals` iteration -/

theorem updateStep_events_sub (env : Env) (st : CoreState) (t : GitpodTask) :
    (updateStep env st t).2 = [] ∨
    (updateStep env st t).2 = [Event.disposeEv (toTerminalId t.id)] ∨
    (updateStep env st t).2 = [Event.exec (toTerminalId t.id) "/workspace" (attachArgs t.terminal)] ∨
    (updateStep env st t).2 = [Event.log updateErrMsg] := by
  cases hl : lookupW st.taskTerminals (toTerminalId t.id) with
  | none => simp [updateStep, updateStepBody, hl]
  | some w =>
    by_cases hc : t.state = GitpodTaskState.closed
    · simp [updateStep, updateStepBody, hl, hc, fireDispose_events]
    · by_cases hr : t.state ≠ GitpodTaskState.running ∨ jsTruthy w.remoteTerminal
      · simp [updateStep, updateStepBody, hl, hc, hr]
      · by_cases he : env.execFails (toTerminalId t.id)
        · simp [updateStep, updateStepBody, execOp, hl, hc, hr, he]
        · simp [updateStep, updateStepBody, execOp, hl, hc, hr, he]

theorem updRun_nil (env : Env) (st : CoreState) : updRun env st [] = (st, []) := rfl

theorem updRun_cons (env : Env) (st : CoreState) (t : GitpodTask) (ts : List GitpodTask) :
    updRun env st (t :: ts) =
      ((updRun env (updateStep env st t).1 ts).1,
        (updateStep env st t).2 ++ (updRun env (updateStep env st t).1 ts).2) := by
  simp only [updRun, updateTerminals]
  cases h : updateTerminals env (updateStep env st t).1 ts <;> simp [h]

theorem updRun_no_newTerminal (env : Env) (ts : List GitpodTask) :
    ∀ (st : CoreState) (i ttl : String), Event.newTerminal i ttl ∉ (updRun env st ts).2 := by
  induction ts with
  | nil => intro st i ttl; simp [updRun_nil]
  | cons t ts ih =>
    intro st i ttl
    rw [updRun_cons]
    simp only [List.mem_append, not_or]
    refine ⟨?_, ih _ i ttl⟩
    rcases updateStep_events_sub env st t with h | h | h | h <;> simp [h]

/-- Claim C2, counterexample: a push-notification pass that observes a
RUNNING task with no terminal bound to its derived identity creates
nothing: from the empty state, `updateTerminals` resolves with no events
and an unchanged (still empty) state, although the claim requires a
terminal to be created and attached in every pass. -/
theorem push_pass_never_creates_counterexample :
    updateTerminals envOK initialCoreState
        [{ id := "t1", state := GitpodTaskState.running, terminal := some "r1",
           presentation := some { name := "build" } }] =
      Except.ok (initialCoreState, ([] : List Event)) := rfl

/-- Claim C2 (amended): only the bootstrap pass materializes terminals.
In the bootstrap loop a RUNNING task with no bound terminal gets a
terminal created, started and placed, and the pass then attaches it
(shown both per-iteration and for a whole single-task bootstrap pass,
whose trace is exactly create, start, activate, attach and whose final
registry binds the latched widget); a push-notification pass skips a
task with no bound terminal entirely and never creates any terminal. -/
theorem create_only_in_bootstrap_attach_everywhere :
    (∀ (env : Env) (st : CoreState) (ref : Option String) (t : GitpodTask) (p : TaskPresentation),
      t.state ≠ GitpodTaskState.closed →
      t.presentation = some p →
      lookupW st.taskTerminals (toTerminalId t.id) = none →
      env.newTerminalFails (toTerminalId t.id) = false →
      env.startFails (toTerminalId t.id) = false →
      env.activateFails (toTerminalId t.id) = false →
      (initStep env st ref t).2.1 =
        [Event.newTerminal (toTerminalId t.id) p.name,
          Event.startTerminal (toTerminalId t.id),
          Event.activate (toTerminalId t.id) ref (jsOrStr p.openIn "bottom")
            (jsOrStr p.openMode "tab-after")]) ∧
    (∀ (env : Env) (st : CoreState) (t : GitpodTask) (w : Widget),
      t.state = GitpodTaskState.running →
      lookupW st.taskTerminals (toTerminalId t.id) = some w →
      jsTruthy w.remoteTerminal = false →
      env.execFails (toTerminalId t.id) = false →
      updateStep env st t =
        ({ st with taskTerminals := setW st.taskTerminals (toTerminalId t.id) { w with remoteTerminal := t.terminal } },
          [Event.exec (toTerminalId t.id) "/workspace" (attachArgs t.terminal)])) ∧
    (∀ (env : Env) (st : CoreState) (t : GitpodTask) (p : TaskPresentation),
      t.state = GitpodTaskState.running →
      t.presentation = some p →
      lookupW st.taskTerminals (toTerminalId t.id) = none →
      env.newTerminalFails (toTerminalId t.id) = false →
      env.startFails (toTerminalId t.id) = false →
      env.activateFails (toTerminalId t.id) = false →
      env.execFails (toTerminalId t.id) = false →
      initTerminals env (.ok [t]) st = .ok (initRun env (.ok [t]) st) ∧
      (initRun env (.ok [t]) st).2 =
        [Event.newTerminal (toTerminalId t.id) p.name,
          Event.startTerminal (toTerminalId t.id),
          Event.activate (toTerminalId t.id) none (jsOrStr p.openIn "bottom")
            (jsOrStr p.openMode "tab-after"),
          Event.exec (toTerminalId t.id) "/workspace" (attachArgs t.terminal)] ∧
      lookupW (initRun env (.ok [t]) st).1.taskTerminals (toTerminalId t.id) =
        some { id := toTerminalId t.id, kind := "gitpod-task", remoteTerminal := t.terminal, backingValid := true }) ∧
    (∀ (env : Env) (st : CoreState) (u : GitpodTask),
      lookupW st.taskTerminals (toTerminalId u.id) = none →
      updateStepBody env st u = .ok (st, [])) ∧
    (∀ (env : Env) (st : CoreState) (us : List GitpodTask) (i ttl : String),
      Event.newTerminal i ttl ∉ (updRun env st us).2) := by
  refine ⟨?_, ?_, ?_, ?_, ?_⟩
  · intro env st ref t p hs hp hl h4 h5 h6
    simp [initStep, initStepBody, newTerminalOp, startOp, activateOp, registerOnCreate,
      hp, hl, h4, h5, h6, lookupW_setW_self]
  · intro env st t w hs hl htr he
    simp [updateStep, updateStepBody, execOp, hs, hl, htr, he]
  · intro env st t p hs hp hl h4 h5 h6 h7
    have hmain : initTerminals env (.ok [t]) st = .ok
        ({ st with
            taskTerminals := setW (setW (setW st.taskTerminals (toTerminalId t.id) { id := toTerminalId t.id, kind := "gitpod-task" }) (toTerminalId t.id) { id := toTerminalId t.id, kind := "gitpod-task", backingValid := true }) (toTerminalId t.id) { id := toTerminalId t.id, kind := "gitpod-task", remoteTerminal := t.terminal, backingValid := true }
            disposeHandlers := toTerminalId t.id :: st.disposeHandlers
            closeHandlers := toTerminalId t.id :: st.closeHandlers
            terminalsAll := st.terminalsAll ++ [toTerminalId t.id] },
          [Event.newTerminal (toTerminalId t.id) p.name,
            Event.startTerminal (toTerminalId t.id),
            Event.activate (toTerminalId t.id) none (jsOrStr p.openIn "bottom")
              (jsOrStr p.openMode "tab-after"),
            Event.exec (toTerminalId t.id) "/workspace" (attachArgs t.terminal)]) := by
      simp [initTerminals, initLoop, initStep, initStepBody, newTerminalOp, startOp,
        activateOp, registerOnCreate, updateTerminals, updateStep, updateStepBody, execOp,
        jsTruthy, hs, hp, hl, h4, h5, h6, h7, lookupW_setW_self]
    refine ⟨?_, ?_, ?_⟩ <;> simp [initRun, hmain, lookupW_setW_self]
  · intro env st u hl
    simp [updateStepBody, hl]
  · exact fun env st us i ttl => updRun_no_newTerminal env us st i ttl

/-- Claim C2, witness: the amended behavior evaluated on a concrete
RUNNING task in the bootstrap pass from the empty state. -/
theorem create_only_in_bootstrap_witness :
    (initRun envOK (.ok [{ id := "t1", state := GitpodTaskState.running, terminal := some "r1", presentation := some { name := "build" } }]) initialCoreState).2 =
      [Event.newTerminal (toTerminalId "t1") "build",
        Event.startTerminal (toTerminalId "t1"),
        Event.activate (toTerminalId "t1") none (jsOrStr none "bottom")
          (jsOrStr none "tab-after"),
        Event.exec (toTerminalId "t1") "/workspace" (attachArgs (some "r1"))] :=
  ((create_only_in_bootstrap_attach_everywhere.2.2.1 envOK initialCoreState
    { id := "t1", state := GitpodTaskState.running, terminal := some "r1",
      presentation := some { name := "build" } }
    { name := "build" } rfl rfl rfl rfl rfl rfl rfl).2).1

/-! ## Placement order within a bootstrap pass -/

/-- Claim C9, counterexample: registry already holds the terminal of task
"t1" (valid backing), and the bootstrap pass processes tasks "t1", "t2".
The newly created terminal of "t2" is placed anchored after the terminal
of "t1" — but the trace contains no placement of "t1"'s terminal in this
pass (it is a pre-existing terminal being revisited), so "t2" is not
anchored after "the previously-placed terminal of the same pass": nothing
was placed before it, yet its anchor is not empty. -/
theorem placement_anchor_counterexample :
    (initLoop envOK { taskTerminals := [(toTerminalId "t1", { id := toTerminalId "t1", kind := "gitpod-task", backingValid := true })], disposeHandlers := [toTerminalId "t1"], closeHandlers := [toTerminalId "t1"], terminalsAll := [toTerminalId "t1"] } none
        [{ id := "t1", state := GitpodTaskState.opening, presentation := some { name := "a" } }, { id := "t2", state := GitpodTaskState.opening, presentation := some { name := "b" } }]).2.1 =
      [Event.newTerminal (toTerminalId "t2") "b",
        Event.startTerminal (toTerminalId "t2"),
        Event.activate (toTerminalId "t2") (some (toTerminalId "t1")) "bottom" "tab-after"] ∧
    ((initLoop envOK { taskTerminals := [(toTerminalId "t1", { id := toTerminalId "t1", kind := "gitpod-task", backingValid := true })], disposeHandlers := [toTerminalId "t1"], closeHandlers := [toTerminalId "t1"], terminalsAll := [toTerminalId "t1"] } none
        [{ id := "t1", state := GitpodTaskState.opening, presentation := some { name := "a" } }, { id := "t2", state := GitpodTaskState.opening, presentation := some { name := "b" } }]).2.1.countP
      fun e => match e with
        | Event.activate i _ _ _ => decide (i = toTerminalId "t1")
        | _ => false) = 0 := by
  constructor <;> rfl

/-- Claim C9 (amended): within a bootstrap pass, tasks are processed in
payload order and placement happens only for brand-new terminals; each
newly created terminal is placed anchored after the terminal of the most
recent successfully processed task of the same pass — whether that
terminal was newly placed or pre-existing — so the layout matches task
order when the earlier terminals of the pass were themselves newly
created. -/
theorem placement_order_and_anchor :
    (∀ (env : Env) (st : CoreState) (ref : Option String) (t : GitpodTask) (w : Widget)
      (i : String) (r : Option String) (a m : String),
      lookupW st.taskTerminals (toTerminalId t.id) = some w →
      Event.activate i r a m ∉ (initStep env st ref t).2.1) ∧
    (∀ (env : Env) (st : CoreState) (ref : Option String) (t : GitpodTask) (p : TaskPresentation),
      t.presentation = some p →
      lookupW st.taskTerminals (toTerminalId t.id) = none →
      env.newTerminalFails (toTerminalId t.id) = false →
      env.startFails (toTerminalId t.id) = false →
      env.activateFails (toTerminalId t.id) = false →
      (initStep env st ref t).2.1 =
        [Event.newTerminal (toTerminalId t.id) p.name,
          Event.startTerminal (toTerminalId t.id),
          Event.activate (toTerminalId t.id) ref (jsOrStr p.openIn "bottom")
            (jsOrStr p.openMode "tab-after")] ∧
      (initStep env st ref t).2.2 = some (toTerminalId t.id)) ∧
    (∀ (env : Env) (st : CoreState) (ref : Option String) (t : GitpodTask) (w : Widget),
      lookupW st.taskTerminals (toTerminalId t.id) = some w →
      w.backingValid = true →
      initStep env st ref t = (st, [], some (toTerminalId t.id))) ∧
    (∀ (env : Env) (st : CoreState) (ref : Option String) (t : GitpodTask) (ts : List GitpodTask),
      (t.state ≠ GitpodTaskState.closed →
        initLoop env st ref (t :: ts) =
          ((initLoop env (initStep env st ref t).1 (initStep env st ref t).2.2 ts).1,
            (initStep env st ref t).2.1 ++
              (initLoop env (initStep env st ref t).1 (initStep env st ref t).2.2 ts).2.1,
            (initLoop env (initStep env st ref t).1 (initStep env st ref t).2.2 ts).2.2)) ∧
      (t.state = GitpodTaskState.closed →
        initLoop env st ref (t :: ts) = initLoop env st ref ts)) := by
  refine ⟨?_, ?_, ?_, ?_⟩
  · intro env st ref t w i r a m hl
    by_cases hb : w.backingValid
    · simp [initStep, initStepBody, hl, hb]
    · by_cases hs : env.startFails (toTerminalId t.id)
      · simp [initStep, initStepBody, startOp, hl, hb, hs]
      · simp [initStep, initStepBody, startOp, hl, hb, hs]
  · intro env st ref t p hp hl h4 h5 h6
    constructor <;>
      simp [initStep, initStepBody, newTerminalOp, startOp, activateOp, registerOnCreate,
        hp, hl, h4, h5, h6, lookupW_setW_self]
  · intro env st ref t w hl hb
    simp [initStep, initStepBody, hl, hb]
  · intro env st ref t ts
    constructor
    · intro hs
      simp [initLoop, hs]
    · intro hs
      simp [initLoop, hs]

/-- Claim C9, witness: the revisited-terminal case evaluated concretely —
a pre-existing valid terminal yields no placement and becomes the anchor
for the next task. -/
theorem placement_order_and_anchor_witness :
    initStep envOK { taskTerminals := [(toTerminalId "t1", { id := toTerminalId "t1", kind := "gitpod-task", backingValid := true })], disposeHandlers := [toTerminalId "t1"], closeHandlers := [toTerminalId "t1"], terminalsAll := [toTerminalId "t1"] } none
        { id := "t1", state := GitpodTaskState.opening, presentation := some { name := "a" } } =
      ({ taskTerminals := [(toTerminalId "t1", { id := toTerminalId "t1", kind := "gitpod-task", backingValid := true })], disposeHandlers := [toTerminalId "t1"], closeHandlers := [toTerminalId "t1"], terminalsAll := [toTerminalId "t1"] }, [], some (toTerminalId "t1")) :=
  placement_order_and_anchor.2.2.1 envOK _ none
    { id := "t1", state := GitpodTaskState.opening, presentation := some { name := "a" } }
    { id := toTerminalId "t1", kind := "gitpod-task", backingValid := true } (by decide) rfl

/-! ## The pass bodies never reject -/

theorem updateTerminals_eq_ok (env : Env) (ts : List GitpodTask) :
    ∀ st : CoreState, updateTerminals env st ts = .ok (updRun env st ts) := by
  induction ts with
  | nil => intro st; rfl
  | cons t ts ih =>
    intro st
    rw [updRun_cons]
    simp only [updateTerminals, ih]

theorem initTerminals_ok (env : Env) (fetchTasks : List GitpodTask) (st : CoreState)
    (hd : env.defaultNewTerminalFails = false) :
    initTerminals env (.ok fetchTasks) st = .ok (initRun env (.ok fetchTasks) st) := by
  have hok : ∃ r, initTerminals env (.ok fetchTasks) st = .ok r := by
    simp only [initTerminals, updateTerminals_eq_ok]
    split
    · rw [hd]
      exact ⟨_, rfl⟩
    · exact ⟨_, rfl⟩
  obtain ⟨r, hr⟩ := hok
  simp [initRun, hr]

/-- Claim C7: per-task failure isolation.  `updateTerminals` always
resolves, whatever external calls throw (every iteration catches its own
error); an error inside one `initTerminals` iteration is caught, logged,
leaves the anchor unchanged and the loop continues with the remaining
tasks from the partial state; and `initTerminals` itself can only reject
through the task fetch or the fallback default-terminal creation, never
through a per-task error. -/
theorem per_task_failure_isolation :
    (∀ (env : Env) (st : CoreState) (ts : List GitpodTask),
      updateTerminals env st ts = .ok (updRun env st ts)) ∧
    (∀ (env : Env) (st : CoreState) (ref : Option String) (t : GitpodTask)
      (ts : List GitpodTask) (eSt : CoreState) (eEvs : List Event),
      initStepBody env st ref t = .error (eSt, eEvs) →
      initStep env st ref t = (eSt, eEvs ++ [Event.log startErrMsg], ref) ∧
      (t.state ≠ GitpodTaskState.closed →
        initLoop env st ref (t :: ts) =
          ((initLoop env eSt ref ts).1,
            (eEvs ++ [Event.log startErrMsg]) ++ (initLoop env eSt ref ts).2.1,
            (initLoop env eSt ref ts).2.2))) ∧
    (∀ (env : Env) (fetchTasks : List GitpodTask) (st : CoreState),
      env.defaultNewTerminalFails = false →
      initTerminals env (.ok fetchTasks) st = .ok (initRun env (.ok fetchTasks) st)) := by
  refine ⟨fun env st ts => updateTerminals_eq_ok env ts st, ?_, initTerminals_ok⟩
  intro env st ref t ts eSt eEvs herr
  have hstep : initStep env st ref t = (eSt, eEvs ++ [Event.log startErrMsg], ref) := by
    simp [initStep, herr]
  refine ⟨hstep, fun hs => ?_⟩
  simp [initLoop, hs, hstep]

/-- Claim C7, witness: with an environment whose terminal creation throws
for task "t1", the bootstrap iteration for "t1" is caught and logged with
no state change. -/
theorem per_task_failure_isolation_witness :
    initStep { newTerminalFails := fun i => i == toTerminalId "t1", startFails := fun _ => false, activateFails := fun _ => false, execFails := fun _ => false, defaultNewTerminalFails := false }
      initialCoreState none { id := "t1", state := GitpodTaskState.running, presentation := some { name := "build" } } =
      (initialCoreState, [Event.log startErrMsg], none) :=
  (per_task_failure_isolation.2.1
    { newTerminalFails := fun i => i == toTerminalId "t1", startFails := fun _ => false, activateFails := fun _ => false, execFails := fun _ => false, defaultNewTerminalFails := false }
    initialCoreState none
    { id := "t1", state := GitpodTaskState.running, presentation := some { name := "build" } }
    [] initialCoreState [] rfl).1

/-! ## Serialization of the pendingUpdates chain -/

theorem runPass_ok (env : Env) (p : Pass) (st : CoreState) :
    ∃ r, runPass env p st = .ok r := by
  cases p with
  | bootstrap fetch =>
    rcases h : initTerminals env fetch st with r | r <;> simp [runPass, h]
  | push tasks => exact ⟨_, updateTerminals_eq_ok env tasks st⟩

theorem runChain_serialized (env : Env) : ∀ (ps : List Pass) (st : CoreState) (n : Nat),
    (runChain env st n false ps).2.2 = false ∧
    WellBlocked n (runChain env st n false ps).2.1 ∧
    (∀ k, k < ps.length →
      TraceItem.passStart (n + k) ∈ (runChain env st n false ps).2.1 ∧
      TraceItem.passEnd (n + k) ∈ (runChain env st n false ps).2.1) := by
  intro ps
  induction ps with
  | nil =>
    intro st n
    refine ⟨rfl, WellBlocked.nil n, ?_⟩
    intro k hk
    simp at hk
  | cons p ps ih =>
    intro st n
    obtain ⟨⟨st1, evs⟩, hp⟩ := runPass_ok env p st
    have h3 := ih st1 (n + 1)
    have hch : runChain env st n false (p :: ps) =
        ((runChain env st1 (n + 1) false ps).1,
          TraceItem.passStart n ::
            (evs.map TraceItem.ev ++
              TraceItem.passEnd n :: (runChain env st1 (n + 1) false ps).2.1),
          (runChain env st1 (n + 1) false ps).2.2) := by
      simp [runChain, hp]
    refine ⟨?_, ?_, ?_⟩
    · rw [hch]
      exact h3.1
    · rw [hch]
      exact WellBlocked.block n evs _ h3.2.1
    · intro k hk
      rw [hch]
      cases k with
      | zero =>
        constructor <;> simp
      | succ k =>
        have hk2 : k < ps.length := by
          simpa using Nat.lt_of_succ_lt_succ hk
        have hmem := h3.2.2 k hk2
        have harith : n + (k + 1) = (n + 1) + k := by omega
        rw [harith]
        constructor
        · exact List.mem_cons_of_mem _ (by
            simp only [List.mem_append, List.mem_cons]
            exact Or.inr (Or.inr hmem.1))
        · exact List.mem_cons_of_mem _ (by
            simp only [List.mem_append, List.mem_cons]
            exact Or.inr (Or.inr hmem.2))

/-- Claim C1: the pendingUpdates chain — bootstrap first, then every push
notification in submission order — never becomes rejected (the bootstrap
rejection is caught at the chain head and push bodies catch per-task
errors), and its trace is a sequence of consecutively numbered whole pass
blocks: pass N+1 starts only after pass N has settled, passes never
overlap, and every submitted pass (start and end) appears in the trace —
none is skipped. -/
theorem passes_serialized_and_chain_total
    (env : Env) (fetch : Except Unit (List GitpodTask)) (pushes : List (List GitpodTask)) :
    (pendingUpdatesRun env fetch pushes).2.2 = false ∧
    WellBlocked 0 (pendingUpdatesRun env fetch pushes).2.1 ∧
    (∀ n, n < pushes.length + 1 →
      TraceItem.passStart n ∈ (pendingUpdatesRun env fetch pushes).2.1 ∧
      TraceItem.passEnd n ∈ (pendingUpdatesRun env fetch pushes).2.1) := by
  have h := runChain_serialized env (Pass.bootstrap fetch :: pushes.map Pass.push)
    initialCoreState 0
  refine ⟨h.1, h.2.1, ?_⟩
  intro n hn
  have hlen : n < (Pass.bootstrap fetch :: pushes.map Pass.push).length := by
    simpa [List.length_map] using hn
  have hmem := h.2.2 n hlen
  simpa using hmem

/-- Claim C1, witness: a concrete chain of a bootstrap pass and one push
pass, with the second pass present whole in the trace. -/
theorem passes_serialized_witness :
    TraceItem.passStart 1 ∈ (pendingUpdatesRun envOK (.ok []) [[]]).2.1 ∧
      TraceItem.passEnd 1 ∈ (pendingUpdatesRun envOK (.ok []) [[]]).2.1 :=
  (passes_serialized_and_chain_total envOK (.ok []) [[]]).2.2 1 (by decide)

/-! ## Effect shape of the loop iterations -/

theorem fireDispose_taskTerminals (st : CoreState) (i : String) :
    (fireDispose st i).1.taskTerminals =
      if i ∈ st.disposeHandlers then eraseW st.taskTerminals i else st.taskTerminals := by
  simp only [fireDispose]
  split
  next h => simp [h]
  next h => simp [h]

theorem fireDispose_disposeHandlers (st : CoreState) (i : String) :
    (fireDispose st i).1.disposeHandlers = st.disposeHandlers := by
  simp only [fireDispose]
  split <;> rfl

theorem updateStep_state_cases (env : Env) (st : CoreState) (t : GitpodTask) :
    (updateStep env st t).1 = st ∨
    (updateStep env st t).1 = (fireDispose st (toTerminalId t.id)).1 ∨
    (∃ w, lookupW st.taskTerminals (toTerminalId t.id) = some w ∧
      (updateStep env st t).1 = { st with taskTerminals := setW st.taskTerminals (toTerminalId t.id) { w with remoteTerminal := t.terminal } }) := by
  cases hl : lookupW st.taskTerminals (toTerminalId t.id) with
  | none =>
    left
    simp [updateStep, updateStepBody, hl]
  | some w =>
    by_cases hc : t.state = GitpodTaskState.closed
    · right; left
      simp [updateStep, updateStepBody, hl, hc]
    · by_cases hr : t.state ≠ GitpodTaskState.running ∨ jsTruthy w.remoteTerminal
      · left
        simp [updateStep, updateStepBody, hl, hc, hr]
      · right; right
        refine ⟨w, rfl, ?_⟩
        by_cases he : env.execFails (toTerminalId t.id)
        · simp [updateStep, updateStepBody, execOp, hl, hc, hr, he]
        · simp [updateStep, updateStepBody, execOp, hl, hc, hr, he]

theorem updateStep_disposeHandlers (env : Env) (st : CoreState) (t : GitpodTask) :
    (updateStep env st t).1.disposeHandlers = st.disposeHandlers := by
  rcases updateStep_state_cases env st t with h | h | ⟨w, _, h⟩ <;>
    simp [h, fireDispose_disposeHandlers]

theorem updateStep_not_found (env : Env) (st : CoreState) (t : GitpodTask)
    (hl : lookupW st.taskTerminals (toTerminalId t.id) = none) :
    updateStep env st t = (st, []) := by
  simp [updateStep, updateStepBody, hl]

theorem updateStep_closed_eq (env : Env) (st : CoreState) (t : GitpodTask) (w : Widget)
    (hl : lookupW st.taskTerminals (toTerminalId t.id) = some w)
    (hc : t.state = GitpodTaskState.closed) :
    updateStep env st t = fireDispose st (toTerminalId t.id) := by
  simp [updateStep, updateStepBody, hl, hc]

theorem updateStep_skip (env : Env) (st : CoreState) (t : GitpodTask) (w : Widget)
    (hl : lookupW st.taskTerminals (toTerminalId t.id) = some w)
    (hc : ¬ t.state = GitpodTaskState.closed)
    (hr : t.state ≠ GitpodTaskState.running ∨ jsTruthy w.remoteTerminal) :
    updateStep env st t = (st, []) := by
  simp [updateStep, updateStepBody, hl, hc, hr]

theorem updateStep_none_frame (env : Env) (st : CoreState) (t : GitpodTask) (i : String)
    (hl : lookupW st.taskTerminals i = none) :
    lookupW (updateStep env st t).1.taskTerminals i = none ∧
      (∀ c a, Event.exec i c a ∉ (updateStep env st t).2) := by
  by_cases hid : toTerminalId t.id = i
  · subst hid
    rw [updateStep_not_found env st t hl]
    exact ⟨hl, by simp⟩
  · constructor
    · rcases updateStep_state_cases env st t with h | h | ⟨w, _, h⟩
      · rw [h]; exact hl
      · rw [h, fireDispose_taskTerminals]
        split
        · rw [lookupW_eraseW_ne _ _ _ (fun e => hid e.symm)]; exact hl
        · exact hl
      · rw [h]
        simpa [lookupW_setW_ne _ _ _ _ (fun e => hid e.symm)] using hl
    · intro c a hmem
      rcases updateStep_events_sub env st t with h | h | h | h <;> rw [h] at hmem <;>
        simp at hmem
      · exact hid hmem.1.symm

/-! ## Effect shape of one `initTerminals` iteration -/

theorem initStep_state_cases (env : Env) (st : CoreState) (ref : Option String) (t : GitpodTask) :
    (initStep env st ref t).1 = st ∨
    (∃ w, lookupW st.taskTerminals (toTerminalId t.id) = some w ∧
      (initStep env st ref t).1 = { st with taskTerminals := setW st.taskTerminals (toTerminalId t.id) { w with backingValid := true } }) ∨
    (lookupW st.taskTerminals (toTerminalId t.id) = none ∧
      ((initStep env st ref t).1 = { st with taskTerminals := setW st.taskTerminals (toTerminalId t.id) { id := toTerminalId t.id, kind := "gitpod-task" }, disposeHandlers := toTerminalId t.id :: st.disposeHandlers, closeHandlers := toTerminalId t.id :: st.closeHandlers, terminalsAll := st.terminalsAll ++ [toTerminalId t.id] } ∨
        (initStep env st ref t).1 = { st with taskTerminals := setW (setW st.taskTerminals (toTerminalId t.id) { id := toTerminalId t.id, kind := "gitpod-task" }) (toTerminalId t.id) { id := toTerminalId t.id, kind := "gitpod-task", backingValid := true }, disposeHandlers := toTerminalId t.id :: st.disposeHandlers, closeHandlers := toTerminalId t.id :: st.closeHandlers, terminalsAll := st.terminalsAll ++ [toTerminalId t.id] })) := by
  cases hl : lookupW st.taskTerminals (toTerminalId t.id) with
  | none =>
    cases hp : t.presentation with
    | none =>
      left
      simp [initStep, initStepBody, hl, hp]
    | some p =>
      by_cases hn : env.newTerminalFails (toTerminalId t.id)
      · left
        simp [initStep, initStepBody, newTerminalOp, hl, hp, hn]
      · by_cases hs : env.startFails (toTerminalId t.id)
        · right; right
          refine ⟨rfl, Or.inl ?_⟩
          simp [initStep, initStepBody, newTerminalOp, startOp, registerOnCreate, hl, hp, hn, hs]
        · by_cases ha : env.activateFails (toTerminalId t.id)
          · right; right
            refine ⟨rfl, Or.inr ?_⟩
            simp [initStep, initStepBody, newTerminalOp, startOp, activateOp, registerOnCreate,
              hl, hp, hn, hs, ha, lookupW_setW_self]
          · right; right
            refine ⟨rfl, Or.inr ?_⟩
            simp [initStep, initStepBody, newTerminalOp, startOp, activateOp, registerOnCreate,
              hl, hp, hn, hs, ha, lookupW_setW_self]
  | some w =>
    by_cases hb : w.backingValid
    · left
      simp [initStep, initStepBody, hl, hb]
    · by_cases hs : env.startFails (toTerminalId t.id)
      · left
        simp [initStep, initStepBody, startOp, hl, hb, hs]
      · right; left
        refine ⟨w, rfl, ?_⟩
        simp [initStep, initStepBody, startOp, hl, hb, hs]

theorem initStep_events_sub (env : Env) (st : CoreState) (ref : Option String) (t : GitpodTask) :
    ∀ e ∈ (initStep env st ref t).2.1,
      e = Event.log startErrMsg ∨ e = Event.startTerminal (toTerminalId t.id) ∨
      (∃ ttl, e = Event.newTerminal (toTerminalId t.id) ttl) ∨
      (∃ r a m, e = Event.activate (toTerminalId t.id) r a m) := by
  intro e he
  cases hl : lookupW st.taskTerminals (toTerminalId t.id) with
  | none =>
    cases hp : t.presentation with
    | none =>
      simp [initStep, initStepBody, hl, hp] at he
      simp [he]
    | some p =>
      by_cases hn : env.newTerminalFails (toTerminalId t.id)
      · simp [initStep, initStepBody, newTerminalOp, hl, hp, hn] at he
        simp [he]
      · by_cases hs : env.startFails (toTerminalId t.id)
        · simp [initStep, initStepBody, newTerminalOp, startOp, registerOnCreate,
            hl, hp, hn, hs] at he
          rcases he with he | he <;> simp [he]
        · by_cases ha : env.activateFails (toTerminalId t.id)
          · simp [initStep, initStepBody, newTerminalOp, startOp, activateOp, registerOnCreate,
              hl, hp, hn, hs, ha, lookupW_setW_self] at he
            rcases he with he | he | he <;> simp [he]
          · simp [initStep, initStepBody, newTerminalOp, startOp, activateOp, registerOnCreate,
              hl, hp, hn, hs, ha, lookupW_setW_self] at he
            rcases he with he | he | he <;> simp [he]
  | some w =>
    by_cases hb : w.backingValid
    · simp [initStep, initStepBody, hl, hb] at he
    · by_cases hs : env.startFails (toTerminalId t.id)
      · simp [initStep, initStepBody, startOp, hl, hb, hs] at he
        simp [he]
      · simp [initStep, initStepBody, startOp, hl, hb, hs] at he
        simp [he]

theorem initStep_frame_lookup (env : Env) (st : CoreState) (ref : Option String)
    (t : GitpodTask) (i : String) (hid : toTerminalId t.id ≠ i) :
    lookupW (initStep env st ref t).1.taskTerminals i = lookupW st.taskTerminals i := by
  rcases initStep_state_cases env st ref t with h | ⟨w, hw, h⟩ | ⟨hn, h | h⟩ <;>
    simp [h, lookupW_setW_ne _ _ _ _ (Ne.symm hid)]

theorem initStep_handlers_mono (env : Env) (st : CoreState) (ref : Option String)
    (t : GitpodTask) : ∀ x ∈ st.disposeHandlers, x ∈ (initStep env st ref t).1.disposeHandlers := by
  intro x hx
  rcases initStep_state_cases env st ref t with h | ⟨w, hw, h⟩ | ⟨hn, h | h⟩ <;>
    simp [h, hx]

theorem initStep_no_exec (env : Env) (st : CoreState) (ref : Option String)
    (t : GitpodTask) : ∀ i c a, Event.exec i c a ∉ (initStep env st ref t).2.1 := by
  intro i c a hmem
  rcases initStep_events_sub env st ref t _ hmem with h | h | ⟨ttl, h⟩ | ⟨r, a2, m, h⟩ <;>
    simp at h

theorem initStep_latch (env : Env) (st : CoreState) (ref : Option String)
    (t : GitpodTask) (i : String) (w : Widget)
    (hl : lookupW st.taskTerminals i = some w) :
    ∃ w', lookupW (initStep env st ref t).1.taskTerminals i = some w' ∧
      w'.remoteTerminal = w.remoteTerminal := by
  by_cases hid : toTerminalId t.id = i
  · subst hid
    rcases initStep_state_cases env st ref t with h | ⟨w2, hw2, h⟩ | ⟨hn, _⟩
    · exact ⟨w, by rw [h]; exact hl, rfl⟩
    · rw [hl] at hw2
      injection hw2 with e
      subst e
      refine ⟨{ w with backingValid := true }, ?_, rfl⟩
      rw [h]
      simp [lookupW_setW_self]
    · rw [hl] at hn
      exact absurd hn (by simp)
  · exact ⟨w, by rw [initStep_frame_lookup env st ref t i hid]; exact hl, rfl⟩

theorem initLoop_latch (env : Env) (ts : List GitpodTask) :
    ∀ (st : CoreState) (ref : Option String) (i : String) (w : Widget),
      lookupW st.taskTerminals i = some w →
      ∃ w', lookupW (initLoop env st ref ts).1.taskTerminals i = some w' ∧
        w'.remoteTerminal = w.remoteTerminal := by
  induction ts with
  | nil =>
    intro st ref i w hl
    exact ⟨w, hl, rfl⟩
  | cons t ts ih =>
    intro st ref i w hl
    by_cases hc : t.state = GitpodTaskState.closed
    · have heq : initLoop env st ref (t :: ts) = initLoop env st ref ts := by
        simp [initLoop, hc]
      rw [heq]
      exact ih st ref i w hl
    · have heq : (initLoop env st ref (t :: ts)).1 =
          (initLoop env (initStep env st ref t).1 (initStep env st ref t).2.2 ts).1 := by
        simp [initLoop, hc]
      rw [heq]
      obtain ⟨w1, hw1, he1⟩ := initStep_latch env st ref t i w hl
      obtain ⟨w2, hw2, he2⟩ := ih (initStep env st ref t).1 (initStep env st ref t).2.2 i w1 hw1
      exact ⟨w2, hw2, he2.trans he1⟩

theorem initLoop_handlers_mono (env : Env) (ts : List GitpodTask) :
    ∀ (st : CoreState) (ref : Option String) (x : String),
      x ∈ st.disposeHandlers → x ∈ (initLoop env st ref ts).1.disposeHandlers := by
  induction ts with
  | nil => intro st ref x hx; exact hx
  | cons t ts ih =>
    intro st ref x hx
    by_cases hc : t.state = GitpodTaskState.closed
    · have heq : initLoop env st ref (t :: ts) = initLoop env st ref ts := by
        simp [initLoop, hc]
      rw [heq]
      exact ih st ref x hx
    · have heq : (initLoop env st ref (t :: ts)).1 =
          (initLoop env (initStep env st ref t).1 (initStep env st ref t).2.2 ts).1 := by
        simp [initLoop, hc]
      rw [heq]
      exact ih _ _ x (initStep_handlers_mono env st ref t x hx)

theorem initLoop_no_exec (env : Env) (ts : List GitpodTask) :
    ∀ (st : CoreState) (ref : Option String) (i c : String) (a : List String),
      Event.exec i c a ∉ (initLoop env st ref ts).2.1 := by
  induction ts with
  | nil => intro st ref i c a; simp [initLoop]
  | cons t ts ih =>
    intro st ref i c a
    by_cases hc : t.state = GitpodTaskState.closed
    · have heq : initLoop env st ref (t :: ts) = initLoop env st ref ts := by
        simp [initLoop, hc]
      rw [heq]
      exact ih st ref i c a
    · have heq : (initLoop env st ref (t :: ts)).2.1 =
          (initStep env st ref t).2.1 ++
            (initLoop env (initStep env st ref t).1 (initStep env st ref t).2.2 ts).2.1 := by
        simp [initLoop, hc]
      rw [heq]
      simp only [List.mem_append, not_or]
      exact ⟨initStep_no_exec env st ref t i c a, ih _ _ i c a⟩

theorem updateStep_frame_lookup (env : Env) (st : CoreState) (t : GitpodTask) (i : String)
    (hid : toTerminalId t.id ≠ i) :
    lookupW (updateStep env st t).1.taskTerminals i = lookupW st.taskTerminals i := by
  rcases updateStep_state_cases env st t with h | h | ⟨w, hw, h⟩
  · rw [h]
  · rw [h, fireDispose_taskTerminals]
    split
    · exact lookupW_eraseW_ne _ _ _ (Ne.symm hid)
    · rfl
  · rw [h]
    simpa using lookupW_setW_ne _ _ _ _ (Ne.symm hid)

theorem updateStep_exec_ne (env : Env) (st : CoreState) (t : GitpodTask) (i : String)
    (hid : toTerminalId t.id ≠ i) :
    ∀ c a, Event.exec i c a ∉ (updateStep env st t).2 := by
  intro c a hmem
  rcases updateStep_events_sub env st t with h | h | h | h <;> rw [h] at hmem <;> simp at hmem
  exact hid hmem.1.symm

theorem updRun_latchInv (env : Env) (ts : List GitpodTask) :
    ∀ (st : CoreState) (i : String) (v : Option String),
      jsTruthy v = true → LatchInv i v st →
      LatchInv i v (updRun env st ts).1 ∧
        (∀ c a, Event.exec i c a ∉ (updRun env st ts).2) := by
  induction ts with
  | nil =>
    intro st i v ht hP
    refine ⟨hP, ?_⟩
    intro c a
    simp [updRun_nil]
  | cons t ts ih =>
    intro st i v ht hP
    rw [updRun_cons]
    have hstep : LatchInv i v (updateStep env st t).1 ∧
        (∀ c a, Event.exec i c a ∉ (updateStep env st t).2) := by
      rcases hP with hnone | ⟨w, hw, hv⟩
      · have h := updateStep_none_frame env st t i hnone
        exact ⟨Or.inl h.1, h.2⟩
      · by_cases hid : toTerminalId t.id = i
        · subst hid
          by_cases hc : t.state = GitpodTaskState.closed
          · rw [updateStep_closed_eq env st t w hw hc]
            constructor
            · rw [show (LatchInv (toTerminalId t.id) v (fireDispose st (toTerminalId t.id)).1) =
                (LatchInv (toTerminalId t.id) v (fireDispose st (toTerminalId t.id)).1) from rfl]
              unfold LatchInv
              rw [fireDispose_taskTerminals]
              split
              · exact Or.inl (lookupW_eraseW_self _ _)
              · exact Or.inr ⟨w, hw, hv⟩
            · intro c a
              rw [fireDispose_events]
              simp
          · have htr : jsTruthy w.remoteTerminal = true := by rw [hv]; exact ht
            rw [updateStep_skip env st t w hw hc (Or.inr (by rw [htr]))]
            exact ⟨Or.inr ⟨w, hw, hv⟩, by intro c a; simp⟩
        · constructor
          · unfold LatchInv
            rw [updateStep_frame_lookup env st t i hid]
            exact Or.inr ⟨w, hw, hv⟩
          · exact updateStep_exec_ne env st t i hid
    obtain ⟨hrec1, hrec2⟩ := ih (updateStep env st t).1 i v ht hstep.1
    refine ⟨hrec1, ?_⟩
    intro c a
    simp only [List.mem_append, not_or]
    exact ⟨hstep.2 c a, hrec2 c a⟩

/-! ## Pass-level decomposition -/

theorem passRun_push (env : Env) (ts : List GitpodTask) (st : CoreState) :
    passRun env (Pass.push ts) st = updRun env st ts := by
  simp [passRun, runPass, updateTerminals_eq_ok]

theorem passRun_bootstrap (env : Env) (f : Except Unit (List GitpodTask)) (st : CoreState) :
    (passRun env (Pass.bootstrap f) st).1 = (initRun env f st).1 ∧
    ((passRun env (Pass.bootstrap f) st).2 = (initRun env f st).2 ∨
      (passRun env (Pass.bootstrap f) st).2 = (initRun env f st).2 ++ [Event.log bootErrMsg]) := by
  rcases h : initTerminals env f st with r | r <;> simp [passRun, runPass, initRun, h]

theorem initRun_fetch_error (env : Env) (e : Unit) (st : CoreState) :
    initRun env (.error e) st = (st, []) := rfl

theorem initRun_parts (env : Env) (tasks : List GitpodTask) (st : CoreState) :
    (initRun env (.ok tasks) st).1.taskTerminals =
      (updRun env (initLoop env st none tasks).1 tasks).1.taskTerminals ∧
    (initRun env (.ok tasks) st).1.disposeHandlers =
      (updRun env (initLoop env st none tasks).1 tasks).1.disposeHandlers ∧
    ((initRun env (.ok tasks) st).2 =
        (initLoop env st none tasks).2.1 ++ (updRun env (initLoop env st none tasks).1 tasks).2 ∨
      (initRun env (.ok tasks) st).2 =
        ((initLoop env st none tasks).2.1 ++ (updRun env (initLoop env st none tasks).1 tasks).2) ++
          [Event.newDefaultTerminal, Event.startTerminal "(default)", Event.openTerminal]) := by
  by_cases hL : (updRun env (initLoop env st none tasks).1 tasks).1.terminalsAll.length = 0
  · by_cases hd : env.defaultNewTerminalFails
    · have hI : initTerminals env (.ok tasks) st =
          .error ((updRun env (initLoop env st none tasks).1 tasks).1,
            (initLoop env st none tasks).2.1 ++ (updRun env (initLoop env st none tasks).1 tasks).2) := by
        simp only [initTerminals, updateTerminals_eq_ok]
        rw [if_pos hL, if_pos hd]
      simp [initRun, hI]
    · have hI : initTerminals env (.ok tasks) st =
          .ok ({ (updRun env (initLoop env st none tasks).1 tasks).1 with
              terminalsAll := (updRun env (initLoop env st none tasks).1 tasks).1.terminalsAll ++ ["(default)"] },
            (initLoop env st none tasks).2.1 ++ (updRun env (initLoop env st none tasks).1 tasks).2 ++
              [Event.newDefaultTerminal, Event.startTerminal "(default)", Event.openTerminal]) := by
        simp only [initTerminals, updateTerminals_eq_ok]
        rw [if_pos hL, if_neg hd]
      simp [initRun, hI, List.append_assoc]
  · have hI : initTerminals env (.ok tasks) st =
        .ok ((updRun env (initLoop env st none tasks).1 tasks).1,
          (initLoop env st none tasks).2.1 ++ (updRun env (initLoop env st none tasks).1 tasks).2) := by
      simp only [initTerminals, updateTerminals_eq_ok]
      rw [if_neg hL]
    simp [initRun, hI]

theorem passRun_latch (env : Env) (p : Pass) (st : CoreState) (i : String)
    (v : Option String) (w : Widget)
    (ht : jsTruthy v = true)
    (hl : lookupW st.taskTerminals i = some w)
    (hv : w.remoteTerminal = v) :
    (∀ c a, Event.exec i c a ∉ (passRun env p st).2) ∧
      LatchInv i v (passRun env p st).1 := by
  cases p with
  | push ts =>
    rw [passRun_push]
    obtain ⟨h1, h2⟩ := updRun_latchInv env ts st i v ht (Or.inr ⟨w, hl, hv⟩)
    exact ⟨h2, h1⟩
  | bootstrap f =>
    cases f with
    | error e =>
      have heq : passRun env (Pass.bootstrap (.error e)) st = (st, [Event.log bootErrMsg]) := by
        simp [passRun, runPass, initTerminals]
      rw [heq]
      exact ⟨by intro c a; simp, Or.inr ⟨w, hl, hv⟩⟩
    | ok tasks =>
      have hLoop : LatchInv i v (initLoop env st none tasks).1 := by
        obtain ⟨w1, hw1, he1⟩ := initLoop_latch env tasks st none i w hl
        exact Or.inr ⟨w1, hw1, he1.trans hv⟩
      obtain ⟨h1, h2⟩ := updRun_latchInv env tasks (initLoop env st none tasks).1 i v ht hLoop
      obtain ⟨hp1, hp2, hp3⟩ := initRun_parts env tasks st
      obtain ⟨hb1, hb2⟩ := passRun_bootstrap env (.ok tasks) st
      constructor
      · intro c a hmem
        rcases hb2 with he | he <;> rw [he] at hmem <;>
          rcases hp3 with h3 | h3 <;> rw [h3] at hmem <;>
          simp only [List.mem_append, List.mem_cons, List.not_mem_nil, or_false] at hmem
        · rcases hmem with hm | hm
          · exact initLoop_no_exec env tasks st none i c a hm
          · exact h2 c a hm
        · rcases hmem with (hm | hm) | hm
          · exact initLoop_no_exec env tasks st none i c a hm
          · exact h2 c a hm
          · rcases hm with hm | hm | hm <;> simp at hm
        · rcases hmem with (hm | hm) | hm
          · exact initLoop_no_exec env tasks st none i c a hm
          · exact h2 c a hm
          · simp at hm
        · rcases hmem with ((hm | hm) | hm) | hm
          · exact initLoop_no_exec env tasks st none i c a hm
          · exact h2 c a hm
          · rcases hm with hm | hm | hm <;> simp at hm
          · simp at hm
      · unfold LatchInv
        rw [hb1, hp1]
        exact h1

theorem pushChain_latch (env : Env) (pushes : List (List GitpodTask)) :
    ∀ (st : CoreState) (n : Nat) (i : String) (v : Option String),
      jsTruthy v = true → LatchInv i v st →
      (∀ c a, TraceItem.ev (Event.exec i c a) ∉
        (runChain env st n false (pushes.map Pass.push)).2.1) ∧
      LatchInv i v (runChain env st n false (pushes.map Pass.push)).1 := by
  induction pushes with
  | nil =>
    intro st n i v ht hP
    exact ⟨by intro c a; simp [runChain], hP⟩
  | cons ts pushes ih =>
    intro st n i v ht hP
    obtain ⟨⟨st1, evs⟩, hp⟩ := runPass_ok env (Pass.push ts) st
    have hp2 : updateTerminals env st ts = .ok (st1, evs) := hp
    rw [updateTerminals_eq_ok env ts st] at hp2
    have h3 : updRun env st ts = (st1, evs) := by
      simpa using hp2
    obtain ⟨hU1, hU2⟩ := updRun_latchInv env ts st i v ht hP
    rw [h3] at hU1 hU2
    obtain ⟨hC1, hC2⟩ := ih st1 (n + 1) i v ht hU1
    have hch : runChain env st n false (Pass.push ts :: pushes.map Pass.push) =
        ((runChain env st1 (n + 1) false (pushes.map Pass.push)).1,
          TraceItem.passStart n ::
            (evs.map TraceItem.ev ++
              TraceItem.passEnd n :: (runChain env st1 (n + 1) false (pushes.map Pass.push)).2.1),
          (runChain env st1 (n + 1) false (pushes.map Pass.push)).2.2) := by
      simp [runChain, hp]
    constructor
    · intro c a hmem
      rw [List.map_cons, hch] at hmem
      simp only [List.mem_cons, List.mem_append, List.mem_map] at hmem
      rcases hmem with hm | hm
      · exact absurd hm (by simp)
      · rcases hm with ⟨e, hme, hee⟩ | hm
        · have : e = Event.exec i c a := by
            injection hee
          rw [this] at hme
          exact hU2 c a hme
        · rcases hm with hm | hm
          · exact absurd hm (by simp)
          · exact hC1 c a hm
    · rw [List.map_cons, hch]
      exact hC2

/-- Claim C3: the attach latch is idempotent.  Pass level: from any state
whose registry binds at key `i` a widget whose `remoteTerminal` latch
holds a truthy value `v`, a single reconciliation pass (bootstrap or
push) issues no attach command for `i` and leaves the entry either
disposed or still latched to `v` — the latch is never reassigned and no
second attach is issued.  Chain level: the same holds across any chain
of subsequent push-notification passes. -/
theorem latch_set_at_most_once_no_second_attach :
    (∀ (env : Env) (p : Pass) (st : CoreState) (i : String) (v : Option String) (w : Widget),
      jsTruthy v = true →
      lookupW st.taskTerminals i = some w →
      w.remoteTerminal = v →
      (∀ c a, Event.exec i c a ∉ (passRun env p st).2) ∧
        LatchInv i v (passRun env p st).1) ∧
    (∀ (env : Env) (pushes : List (List GitpodTask)) (st : CoreState) (n : Nat)
      (i : String) (v : Option String),
      jsTruthy v = true → LatchInv i v st →
      (∀ c a, TraceItem.ev (Event.exec i c a) ∉
        (runChain env st n false (pushes.map Pass.push)).2.1) ∧
      LatchInv i v (runChain env st n false (pushes.map Pass.push)).1) :=
  ⟨fun env p st i v w ht hl hv => passRun_latch env p st i v w ht hl hv,
    fun env pushes st n i v ht hP => pushChain_latch env pushes st n i v ht hP⟩

/-- Claim C3, witness: a concretely latched widget is not re-attached by
a push pass re-presenting the same RUNNING task. -/
theorem latch_idempotent_witness :
    Event.exec "gitpod-task-terminal:t1" "/workspace" ["x"] ∉
      (passRun envOK
        (Pass.push [{ id := "t1", state := GitpodTaskState.running, terminal := some "r1", presentation := some { name := "build" } }])
        { taskTerminals := [("gitpod-task-terminal:t1", { id := "gitpod-task-terminal:t1", kind := "gitpod-task", remoteTerminal := some "r1", backingValid := true })], disposeHandlers := ["gitpod-task-terminal:t1"], closeHandlers := ["gitpod-task-terminal:t1"], terminalsAll := ["gitpod-task-terminal:t1"] }).2 :=
  (latch_set_at_most_once_no_second_attach.1 envOK
    (Pass.push [{ id := "t1", state := GitpodTaskState.running, terminal := some "r1", presentation := some { name := "build" } }])
    _ "gitpod-task-terminal:t1" (some "r1")
    { id := "gitpod-task-terminal:t1", kind := "gitpod-task", remoteTerminal := some "r1", backingValid := true }
    (by decide) (by decide) rfl).1 "/workspace" ["x"]

/-! ## CLOSED tasks are never materialized -/

theorem updRun_closed (env : Env) (s : String) (ts : List GitpodTask) :
    ∀ st : CoreState,
      (∀ t ∈ ts, t.id = s → t.state = GitpodTaskState.closed) →
      (∀ w, lookupW st.taskTerminals (toTerminalId s) = some w →
        toTerminalId s ∈ st.disposeHandlers) →
      (lookupW st.taskTerminals (toTerminalId s) = none →
        lookupW (updRun env st ts).1.taskTerminals (toTerminalId s) = none) ∧
      (∀ w, lookupW st.taskTerminals (toTerminalId s) = some w →
        (∃ t ∈ ts, t.id = s) →
        Event.disposeEv (toTerminalId s) ∈ (updRun env st ts).2 ∧
          lookupW (updRun env st ts).1.taskTerminals (toTerminalId s) = none) := by
  induction ts with
  | nil =>
    intro st hall hwh
    refine ⟨fun h => by simpa [updRun_nil] using h, ?_⟩
    intro w hw hocc
    simp at hocc
  | cons t ts ih =>
    intro st hall hwh
    have hall' : ∀ t' ∈ ts, t'.id = s → t'.state = GitpodTaskState.closed :=
      fun t' ht' => hall t' (List.mem_cons_of_mem _ ht')
    have hct : t.id = s → t.state = GitpodTaskState.closed :=
      hall t (List.mem_cons_self _ _)
    rw [updRun_cons]
    have hwh' : ∀ w, lookupW (updateStep env st t).1.taskTerminals (toTerminalId s) = some w →
        toTerminalId s ∈ (updateStep env st t).1.disposeHandlers := by
      intro w hw
      rw [updateStep_disposeHandlers]
      by_cases hid : t.id = s
      · subst hid
        rcases updateStep_state_cases env st t with h | h | ⟨w2, hw2, h⟩
        · rw [h] at hw
          exact hwh w hw
        · rw [h, fireDispose_taskTerminals] at hw
          by_cases hm : toTerminalId t.id ∈ st.disposeHandlers
          · exact hm
          · rw [if_neg hm] at hw
            exact hwh w hw
        · rw [h] at hw
          exact hwh w2 hw2
      · have hne : toTerminalId t.id ≠ toTerminalId s := fun e => hid (toTerminalId_inj e)
        rw [updateStep_frame_lookup env st t _ hne] at hw
        exact hwh w hw
    obtain ⟨ih1, ih2⟩ := ih (updateStep env st t).1 hall' hwh'
    constructor
    · intro hnone
      exact ih1 (updateStep_none_frame env st t _ hnone).1
    · intro w hw hocc
      by_cases hid : t.id = s
      · have hc : t.state = GitpodTaskState.closed := hct hid
        have hw2 : lookupW st.taskTerminals (toTerminalId t.id) = some w := by
          rw [hid]; exact hw
        have hstep := updateStep_closed_eq env st t w hw2 hc
        have hnone1 : lookupW (updateStep env st t).1.taskTerminals (toTerminalId s) = none := by
          rw [hstep, fireDispose_taskTerminals, hid]
          rw [if_pos (hwh w hw)]
          exact lookupW_eraseW_self _ _
        refine ⟨?_, ih1 hnone1⟩
        rw [hstep, fireDispose_events, hid]
        simp
      · have hne : toTerminalId t.id ≠ toTerminalId s := fun e => hid (toTerminalId_inj e)
        have hw1 : lookupW (updateStep env st t).1.taskTerminals (toTerminalId s) = some w := by
          rw [updateStep_frame_lookup env st t _ hne]
          exact hw
        have hocc' : ∃ t' ∈ ts, t'.id = s := by
          rcases hocc with ⟨t', ht', he⟩
          rcases List.mem_cons.mp ht' with rfl | hmem
          · exact absurd he hid
          · exact ⟨t', hmem, he⟩
        obtain ⟨hd, hn⟩ := ih2 w hw1 hocc'
        exact ⟨List.mem_append.mpr (Or.inr hd), hn⟩

theorem initLoop_closed (env : Env) (s : String) (ts : List GitpodTask) :
    ∀ (st : CoreState) (ref : Option String),
      (∀ t ∈ ts, t.id = s → t.state = GitpodTaskState.closed) →
      lookupW (initLoop env st ref ts).1.taskTerminals (toTerminalId s) =
        lookupW st.taskTerminals (toTerminalId s) ∧
      (∀ ttl, Event.newTerminal (toTerminalId s) ttl ∉ (initLoop env st ref ts).2.1) := by
  induction ts with
  | nil =>
    intro st ref hall
    exact ⟨rfl, by intro ttl; simp [initLoop]⟩
  | cons t ts ih =>
    intro st ref hall
    have hall' : ∀ t' ∈ ts, t'.id = s → t'.state = GitpodTaskState.closed :=
      fun t' ht' => hall t' (List.mem_cons_of_mem _ ht')
    by_cases hc : t.state = GitpodTaskState.closed
    · have heq : initLoop env st ref (t :: ts) = initLoop env st ref ts := by
        simp [initLoop, hc]
      rw [heq]
      exact ih st ref hall'
    · have hid : t.id ≠ s := fun e => hc (hall t (List.mem_cons_self _ _) e)
      have hne : toTerminalId t.id ≠ toTerminalId s := fun e => hid (toTerminalId_inj e)
      have heq1 : (initLoop env st ref (t :: ts)).1 =
          (initLoop env (initStep env st ref t).1 (initStep env st ref t).2.2 ts).1 := by
        simp [initLoop, hc]
      have heq2 : (initLoop env st ref (t :: ts)).2.1 =
          (initStep env st ref t).2.1 ++
            (initLoop env (initStep env st ref t).1 (initStep env st ref t).2.2 ts).2.1 := by
        simp [initLoop, hc]
      obtain ⟨ihl, ihe⟩ := ih (initStep env st ref t).1 (initStep env st ref t).2.2 hall'
      constructor
      · rw [heq1, ihl, initStep_frame_lookup env st ref t _ hne]
      · intro ttl hmem
        rw [heq2] at hmem
        rcases List.mem_append.mp hmem with hm | hm
        · rcases initStep_events_sub env st ref t _ hm with h | h | ⟨ttl2, h⟩ | ⟨r, a2, m, h⟩ <;>
            simp at h
          exact hne h.1.symm
        · exact ihe ttl hm

/-- Claim C4: a task all of whose observations in a pass are CLOSED is
never materialized: the pass creates no terminal for its derived
identity; if no terminal is bound the identity stays unbound; and if one
is bound (in a state whose registry is wired, as every reachable state
is), the pass disposes it and the registry entry is removed. -/
theorem closed_tasks_never_materialized (env : Env) (p : Pass) (st : CoreState) (s : String)
    (hW : RegWired st)
    (hall : ∀ t ∈ p.tasksOf, t.id = s → t.state = GitpodTaskState.closed) :
    (∀ ttl, Event.newTerminal (toTerminalId s) ttl ∉ (passRun env p st).2) ∧
    (lookupW st.taskTerminals (toTerminalId s) = none →
      lookupW (passRun env p st).1.taskTerminals (toTerminalId s) = none) ∧
    (∀ w, lookupW st.taskTerminals (toTerminalId s) = some w →
      (∃ t ∈ p.tasksOf, t.id = s) →
      Event.disposeEv (toTerminalId s) ∈ (passRun env p st).2 ∧
        lookupW (passRun env p st).1.taskTerminals (toTerminalId s) = none) := by
  have hwh : ∀ w, lookupW st.taskTerminals (toTerminalId s) = some w →
      toTerminalId s ∈ st.disposeHandlers :=
    fun w hw => hW _ (lookupW_some_mem hw)
  cases p with
  | push ts =>
    rw [passRun_push]
    obtain ⟨h1, h2⟩ := updRun_closed env s ts st hall hwh
    exact ⟨fun ttl => updRun_no_newTerminal env ts st _ ttl, h1, h2⟩
  | bootstrap f =>
    cases f with
    | error e =>
      have heq : passRun env (Pass.bootstrap (.error e)) st = (st, [Event.log bootErrMsg]) := by
        simp [passRun, runPass, initTerminals]
      rw [heq]
      refine ⟨by intro ttl; simp, fun h => h, ?_⟩
      intro w hw hocc
      simp [Pass.tasksOf] at hocc
    | ok tasks =>
      have halltasks : ∀ t ∈ tasks, t.id = s → t.state = GitpodTaskState.closed := hall
      obtain ⟨iLookup, iNoNew⟩ := initLoop_closed env s tasks st none halltasks
      have hwh' : ∀ w, lookupW (initLoop env st none tasks).1.taskTerminals (toTerminalId s) = some w →
          toTerminalId s ∈ (initLoop env st none tasks).1.disposeHandlers := by
        intro w hw
        rw [iLookup] at hw
        exact initLoop_handlers_mono env tasks st none _ (hwh w hw)
      obtain ⟨u1, u2⟩ := updRun_closed env s tasks (initLoop env st none tasks).1 halltasks hwh'
      obtain ⟨hp1, hp2, hp3⟩ := initRun_parts env tasks st
      obtain ⟨hb1, hb2⟩ := passRun_bootstrap env (.ok tasks) st
      have hfinal : lookupW (passRun env (Pass.bootstrap (.ok tasks)) st).1.taskTerminals
          (toTerminalId s) =
          lookupW (updRun env (initLoop env st none tasks).1 tasks).1.taskTerminals
            (toTerminalId s) := by
        rw [hb1, hp1]
      refine ⟨?_, ?_, ?_⟩
      · intro ttl hmem
        rcases hb2 with he | he <;> rw [he] at hmem <;>
          rcases hp3 with h3 | h3 <;> rw [h3] at hmem <;>
          simp only [List.mem_append, List.mem_cons, List.not_mem_nil, or_false] at hmem
        · rcases hmem with hm | hm
          · exact iNoNew ttl hm
          · exact updRun_no_newTerminal env tasks _ _ ttl hm
        · rcases hmem with (hm | hm) | hm
          · exact iNoNew ttl hm
          · exact updRun_no_newTerminal env tasks _ _ ttl hm
          · rcases hm with hm | hm | hm <;> simp at hm
        · rcases hmem with (hm | hm) | hm
          · exact iNoNew ttl hm
          · exact updRun_no_newTerminal env tasks _ _ ttl hm
          · simp at hm
        · rcases hmem with ((hm | hm) | hm) | hm
          · exact iNoNew ttl hm
          · exact updRun_no_newTerminal env tasks _ _ ttl hm
          · rcases hm with hm | hm | hm <;> simp at hm
          · simp at hm
      · intro hnone
        rw [hfinal]
        exact u1 (by rw [iLookup]; exact hnone)
      · intro w hw hocc
        have hw1 : lookupW (initLoop env st none tasks).1.taskTerminals (toTerminalId s) = some w := by
          rw [iLookup]; exact hw
        obtain ⟨hd, hn⟩ := u2 w hw1 hocc
        refine ⟨?_, by rw [hfinal]; exact hn⟩
        rcases hb2 with he | he <;> rw [he] <;> rcases hp3 with h3 | h3 <;> rw [h3] <;>
          simp only [List.mem_append, List.mem_cons] <;> tauto

/-- Claim C4, witness: a concrete CLOSED-only pass over a bound terminal
disposes it and removes the registry entry, creating nothing. -/
theorem closed_tasks_never_materialized_witness :
    Event.disposeEv (toTerminalId "t1") ∈
      (passRun envOK (Pass.push [{ id := "t1", state := GitpodTaskState.closed }])
        { taskTerminals := [(toTerminalId "t1", { id := toTerminalId "t1", kind := "gitpod-task", remoteTerminal := some "r1", backingValid := true })], disposeHandlers := [toTerminalId "t1"], closeHandlers := [toTerminalId "t1"], terminalsAll := [toTerminalId "t1"] }).2 ∧
    lookupW (passRun envOK (Pass.push [{ id := "t1", state := GitpodTaskState.closed }])
        { taskTerminals := [(toTerminalId "t1", { id := toTerminalId "t1", kind := "gitpod-task", remoteTerminal := some "r1", backingValid := true })], disposeHandlers := [toTerminalId "t1"], closeHandlers := [toTerminalId "t1"], terminalsAll := [toTerminalId "t1"] }).1.taskTerminals
      (toTerminalId "t1") = none :=
  (closed_tasks_never_materialized envOK
    (Pass.push [{ id := "t1", state := GitpodTaskState.closed }]) _ "t1"
    (by unfold RegWired; decide) (by decide)).2.2
    { id := toTerminalId "t1", kind := "gitpod-task", remoteTerminal := some "r1", backingValid := true }
    (by decide) (by decide)

/-! ## Registry wiring invariant and disposal -/

theorem wired_setW {l : List (String × Widget)} {hs : List String} {i : String} {w w' : Widget}
    (hW : ∀ q ∈ l, q.1 ∈ hs) (hl : lookupW l i = some w) : ∀ q ∈ setW l i w', q.1 ∈ hs := by
  intro q hq
  rcases mem_setW hq with rfl | hq2
  · exact hW (i, w) (lookupW_some_mem hl)
  · exact hW _ hq2

theorem regWired_updateStep (env : Env) (st : CoreState) (t : GitpodTask)
    (hW : RegWired st) : RegWired (updateStep env st t).1 := by
  rcases updateStep_state_cases env st t with h | h | ⟨w, hw, h⟩
  · rw [h]; exact hW
  · rw [h]
    intro q hq
    rw [fireDispose_disposeHandlers]
    rw [fireDispose_taskTerminals] at hq
    by_cases hm : toTerminalId t.id ∈ st.disposeHandlers
    · rw [if_pos hm] at hq
      exact hW _ (mem_eraseW hq)
    · rw [if_neg hm] at hq
      exact hW _ hq
  · rw [h]
    intro q hq
    exact wired_setW hW hw q hq

theorem regWired_updRun (env : Env) (ts : List GitpodTask) :
    ∀ st : CoreState, RegWired st → RegWired (updRun env st ts).1 := by
  induction ts with
  | nil => intro st hW; simpa [updRun_nil] using hW
  | cons t ts ih =>
    intro st hW
    rw [updRun_cons]
    exact ih _ (regWired_updateStep env st t hW)

theorem regWired_initStep (env : Env) (st : CoreState) (ref : Option String) (t : GitpodTask)
    (hW : RegWired st) : RegWired (initStep env st ref t).1 := by
  rcases initStep_state_cases env st ref t with h | ⟨w, hw, h⟩ | ⟨hn, h | h⟩
  · rw [h]; exact hW
  · rw [h]
    intro q hq
    exact wired_setW hW hw q hq
  · rw [h]
    intro q hq
    rcases mem_setW hq with rfl | hq2
    · simp
    · exact List.mem_cons_of_mem _ (hW _ hq2)
  · rw [h]
    intro q hq
    rcases mem_setW hq with rfl | hq2
    · simp
    · rcases mem_setW hq2 with rfl | hq3
      · simp
      · exact List.mem_cons_of_mem _ (hW _ hq3)

theorem regWired_initLoop (env : Env) (ts : List GitpodTask) :
    ∀ (st : CoreState) (ref : Option String), RegWired st → RegWired (initLoop env st ref ts).1 := by
  induction ts with
  | nil => intro st ref hW; exact hW
  | cons t ts ih =>
    intro st ref hW
    by_cases hc : t.state = GitpodTaskState.closed
    · have heq : initLoop env st ref (t :: ts) = initLoop env st ref ts := by
        simp [initLoop, hc]
      rw [heq]
      exact ih st ref hW
    · have heq : (initLoop env st ref (t :: ts)).1 =
          (initLoop env (initStep env st ref t).1 (initStep env st ref t).2.2 ts).1 := by
        simp [initLoop, hc]
      rw [heq]
      exact ih _ _ (regWired_initStep env st ref t hW)

theorem regWired_initRun (env : Env) (f : Except Unit (List GitpodTask)) (st : CoreState)
    (hW : RegWired st) : RegWired (initRun env f st).1 := by
  cases f with
  | error e => rw [initRun_fetch_error]; exact hW
  | ok tasks =>
    obtain ⟨hp1, hp2, hp3⟩ := initRun_parts env tasks st
    intro q hq
    rw [hp1] at hq
    rw [hp2]
    exact regWired_updRun env tasks _ (regWired_initLoop env tasks st none hW) _ hq

theorem regWired_passRun (env : Env) (p : Pass) (st : CoreState)
    (hW : RegWired st) : RegWired (passRun env p st).1 := by
  cases p with
  | push ts =>
    rw [passRun_push]
    exact regWired_updRun env ts st hW
  | bootstrap f =>
    rw [(passRun_bootstrap env f st).1]
    exact regWired_initRun env f st hW

theorem regWired_fireDispose (st : CoreState) (i : String)
    (hW : RegWired st) : RegWired (fireDispose st i).1 := by
  intro q hq
  rw [fireDispose_disposeHandlers]
  rw [fireDispose_taskTerminals] at hq
  by_cases hm : i ∈ st.disposeHandlers
  · rw [if_pos hm] at hq
    exact hW _ (mem_eraseW hq)
  · rw [if_neg hm] at hq
    exact hW _ hq

theorem userClose_state (proto host : String) (st : CoreState) (i : String) :
    (userCloseTerminal proto host st i).1 = (fireDispose st i).1 := rfl

theorem reach_regWired (st : CoreState) (h : Reach st) : RegWired st := by
  induction h with
  | init =>
    intro q hq
    simp [initialCoreState] at hq
  | pass env p st2 h2 ih => exact regWired_passRun env p st2 ih
  | userClose proto host st2 i h2 ih =>
    rw [userClose_state]
    exact regWired_fireDispose st2 i ih
  | extDispose st2 i h2 ih => exact regWired_fireDispose st2 i ih

/-- Claim C5: disposal of a task-bound terminal's underlying handle — by
any trigger — removes its registry entry: in every reachable state,
firing the disposal of any widget id leaves no registry entry under that
id (every registered widget has its unregistration handler installed,
and the handler deletes the entry). -/
theorem disposal_removes_registry_entry (st : CoreState) (i : String) (h : Reach st) :
    lookupW (fireDispose st i).1.taskTerminals i = none := by
  have hW := reach_regWired st h
  cases hl : lookupW st.taskTerminals i with
  | none =>
    rw [fireDispose_taskTerminals]
    split
    · exact lookupW_eraseW_self _ _
    · exact hl
  | some w =>
    have hm : i ∈ st.disposeHandlers := hW _ (lookupW_some_mem hl)
    rw [fireDispose_taskTerminals, if_pos hm]
    exact lookupW_eraseW_self _ _

/-- Claim C5, witness: after a concrete bootstrap pass registers the
terminal of task "t1", disposing it leaves no registry entry. -/
theorem disposal_removes_registry_entry_witness :
    lookupW (fireDispose (passState envOK
        (Pass.bootstrap (.ok [{ id := "t1", state := GitpodTaskState.running, terminal := some "r1", presentation := some { name := "build" } }]))
        initialCoreState) (toTerminalId "t1")).1.taskTerminals (toTerminalId "t1") = none :=
  disposal_removes_registry_entry _ (toTerminalId "t1")
    (Reach.pass envOK
      (Pass.bootstrap (.ok [{ id := "t1", state := GitpodTaskState.running, terminal := some "r1", presentation := some { name := "build" } }]))
      initialCoreState Reach.init)

end Gitpod
